import Mathlib

/-!
Daily Task Reminder: the escalation scheduler of `src/js/app.js`.

A shallow embedding of `TaskManager` and `Scheduler` from `src/js/app.js`, of
the scheduled scan of `src/api/cron.js` and of the subscribe handler of
`src/server/index.js`.

* A JavaScript `Date` is represented by the observations the code makes of it
  (`Clock`): `getTime()`, `getHours()`, `getMinutes()` and the two halves of
  `toISOString()` around the letter `T`.
* A task record is a `Task`; the fields `dueTime` and `escalation` may be
  missing (`undefined` in JavaScript), which is what `none` stands for.
* The alert-state aggregate (a JavaScript object keyed by task id) is an
  association list read with `AlertState.get`, written with `AlertState.set`
  and pruned with `AlertState.del`.
* `Scheduler.checkReminders` is a loop over the task list; `processTask` is
  one iteration of its body. A `TypeError` raised by the body (reading a field
  of a missing `escalation`) is the result `none` of `processTask`; it ends
  the loop and the function, so nothing is written.
* The effects of a tick are its calls of `triggerAlert` (in order) and the
  value handed to `saveState('alertState', ...)`, if any.
* One run of an operation reads the clock once: the `new Date()` of
  `isCompletedToday` and of `updateTask` give the reading of the run.
* The key-value store of the scan is an association list (`KvStore`); the
  outcome of `webpush.sendNotification` is a parameter `send` of the scan.
* The quotient `(now - lastAlertTime) / 60000` is compared with
  `intervalMinutes` on integers (`intervalElapsed`); `intervalElapsed_iff`
  relates the test to the quotient over the rationals.
-/

namespace DailyReminder

/-! ## Data model -/

/-- Observations of a JavaScript `Date`: `getTime()` in milliseconds,
`getHours()`, `getMinutes()` (local clock), and `toISOString()` written as
`isoDate ++ "T" ++ isoTime`, so that `toISOString().split('T')[0]` is
`isoDate`. -/
structure Clock where
  time : Int
  hours : Nat
  minutes : Nat
  isoDate : String
  isoTime : String
  deriving DecidableEq, Repr

/-- The per-task policy `task.escalation`. -/
structure Escalation where
  intervalMinutes : Int
  maxSteps : Int
  deriving DecidableEq, Repr

/-- A task record as the scheduler and the task manager read it
(`src/js/app.js` 183-193). `none` is a missing field. -/
structure Task where
  id : String
  title : String
  dueTime : Option String
  escalation : Option Escalation
  completedInstances : List String
  updatedAt : String
  deriving DecidableEq, Repr

/-- One value of the alert-state aggregate: `{ level, lastTime }`. -/
structure AlertEntry where
  level : Int
  lastTime : Int
  deriving DecidableEq, Repr

/-- The alert-state aggregate, keyed by task id. -/
abbrev AlertState := List (String × AlertEntry)

/-- Property read `alertState[id]`. -/
def AlertState.get : AlertState → String → Option AlertEntry
  | [], _ => none
  | (k, v) :: rest, id => if k = id then some v else AlertState.get rest id

/-- Property removal `delete alertState[id]`. -/
def AlertState.del : AlertState → String → AlertState
  | [], _ => []
  | (k, v) :: rest, id =>
    if k = id then AlertState.del rest id else (k, v) :: AlertState.del rest id

/-- Property write `alertState[id] = entry`. -/
def AlertState.set : AlertState → String → AlertEntry → AlertState
  | [], id, entry => [(id, entry)]
  | (k, v) :: rest, id, entry =>
    if k = id then (id, entry) :: rest else (k, v) :: AlertState.set rest id entry

/-! ## Strings -/

/-- JavaScript `s.padStart(n, c)` for a one-character filler `c`. -/
def padStart (s : String) (n : Nat) (c : Char) : String :=
  String.mk (List.replicate (n - s.length) c ++ s.data)

/-- JavaScript `a < b` on two strings: lexicographic order on the code units.
The left operand of the scheduler is made of ASCII digits and a colon, for
which comparing code points gives the same answer. -/
def jsStrLt : List Char → List Char → Bool
  | _, [] => false
  | [], _ :: _ => true
  | a :: as, b :: bs =>
    if a.toNat < b.toNat then true
    else if b.toNat < a.toNat then false
    else jsStrLt as bs

/-- JavaScript `cur >= due` where `cur` is a string: with `due` missing the
comparison is made on numbers, one of them `NaN`, and is false; on two
strings it is the negation of `cur < due`. -/
def jsGe (cur : String) (due : Option String) : Bool :=
  match due with
  | none => false
  | some d => !(jsStrLt cur.data d.data)

/-- The template of `currentTimeStr`: hour and minute, each written in decimal
and padded to two characters with `0`, joined by a colon. -/
def hhmm (h m : Nat) : String :=
  padStart (toString h) 2 '0' ++ ":" ++ padStart (toString m) 2 '0'

/-! ## TaskManager -/

/-- The two object stores of `Persistence` (`src/js/app.js` 32-41): the task
records, keyed by `id`, and of the state records the one under the key
`alertState`. The field `tasks` is also the array `this.tasks` of the task
manager, which every operation reloads from the store when it ends. -/
structure Database where
  tasks : List Task
  alertState : Option AlertState
  deriving DecidableEq, Repr

/-- The write `store.put(task)` on the store keyed by `id`: the record with
the id of `task` is replaced, and a record with a new id is added. -/
def putTask (task : Task) : List Task → List Task
  | [] => [task]
  | x :: rest => if x.id = task.id then task :: rest else x :: putTask task rest

/-- `Persistence.saveTask` (`src/js/app.js` 49-51). -/
def saveTask (task : Task) (db : Database) : Database :=
  { db with tasks := putTask task db.tasks }

/-- `TaskManager.updateTask` (`src/js/app.js` 199-203): stamps `updatedAt`
with `new Date().toISOString()`, saves the record and reloads the list. -/
def updateTask (now : Clock) (task : Task) (db : Database) : Database :=
  saveTask { task with updatedAt := now.isoDate ++ "T" ++ now.isoTime } db

/-- The date string `new Date().toISOString().split('T')[0]`. -/
def today (now : Clock) : String := now.isoDate

/-- `TaskManager.isCompletedToday` (`src/js/app.js` 223-226). -/
def isCompletedToday (now : Clock) (task : Task) : Bool :=
  task.completedInstances.contains (today now)

/-- `TaskManager.toggleComplete` (`src/js/app.js` 210-221). -/
def toggleComplete (now : Clock) (id : String) (db : Database) : Database :=
  match db.tasks.find? (fun t => t.id == id) with
  | none => db
  | some task =>
    if task.completedInstances.contains (today now) then
      updateTask now
        { task with
          completedInstances := task.completedInstances.filter (fun d => d != today now) }
        db
    else
      updateTask now
        { task with completedInstances := task.completedInstances ++ [today now] } db

/-! ## Scheduler -/

/-- What `Scheduler.triggerAlert` hands to the notification manager:
`notify(title, body, tag)` and `speak(text, level)`. -/
structure Dispatch where
  notifyTitle : String
  notifyBody : String
  notifyTag : String
  speakText : String
  speakLevel : Int
  deriving DecidableEq, Repr

/-- The message chosen by `Scheduler.triggerAlert` (`src/js/app.js` 308-317). -/
def alertMessage (title : String) (level : Int) : String :=
  if level = 2 then
    "Attention: You have not completed " ++ title ++ ". Please do it now."
  else if 3 ≤ level then
    "Urgent! " ++ title ++ " is overdue. Complete it immediately!"
  else
    "Reminder: " ++ title

/-- `Scheduler.triggerAlert` (`src/js/app.js` 305-328). -/
def triggerAlert (task : Task) (level : Int) : Dispatch :=
  let message := alertMessage task.title level
  { notifyTitle := if 3 ≤ level then "URGENT: " ++ task.title else task.title
    notifyBody := message
    notifyTag := task.id
    speakText := message
    speakLevel := level }

/-- The string `currentTimeStr` of `Scheduler.checkReminders`
(`src/js/app.js` 246-248). -/
def currentTimeStr (now : Clock) : String :=
  hhmm now.hours now.minutes

/-- The test `minutesSinceLast >= intervalMinutes` where
`minutesSinceLast = (now - lastAlertTime) / 60000`, on integers:
`d / 60000 >= k` is `60000 * k <= d`. -/
def intervalElapsed (now lastAlertTime intervalMinutes : Int) : Bool :=
  decide (intervalMinutes * 60000 ≤ now - lastAlertTime)

/-- The mutable locals of one run of `checkReminders`: the aggregate, the
flag `stateChanged` and the calls of `triggerAlert` made so far. -/
structure TickState where
  alertState : AlertState
  stateChanged : Bool
  calls : List (Task × Int)
  deriving DecidableEq, Repr

/-- The entry `alertState[task.id] || { level: 0, lastTime: 0 }`. -/
def lastAlertOf (a : AlertState) (id : String) : AlertEntry :=
  (a.get id).getD { level := 0, lastTime := 0 }

/-- One iteration of the loop of `Scheduler.checkReminders`
(`src/js/app.js` 255-298). The result `none` is the `TypeError` of reading
`intervalMinutes` or `maxSteps` of a missing `escalation`: a due task reads
one of them whatever the level is, before any effect of the iteration. -/
def processTask (now : Clock) (s : TickState) (task : Task) : Option TickState :=
  if isCompletedToday now task then
    if (s.alertState.get task.id).isSome then
      some { s with alertState := s.alertState.del task.id, stateChanged := true }
    else
      some s
  else if jsGe (currentTimeStr now) task.dueTime then
    let lastAlert := lastAlertOf s.alertState task.id
    let lastAlertTime := lastAlert.lastTime
    match task.escalation with
    | none => none
    | some esc =>
      if lastAlert.level = 0 ∨ intervalElapsed now.time lastAlertTime esc.intervalMinutes = true then
        let nextLevel := min (lastAlert.level + 1) esc.maxSteps
        some { alertState := s.alertState.set task.id { level := nextLevel, lastTime := now.time }
               stateChanged := true
               calls := s.calls ++ [(task, nextLevel)] }
      else
        some s
  else
    some s

/-- The iteration for `task` raises: the task is not completed today, is due,
and has no `escalation` to read `intervalMinutes` or `maxSteps` from. -/
def raises (now : Clock) (task : Task) : Bool :=
  !isCompletedToday now task && jsGe (currentTimeStr now) task.dueTime &&
    task.escalation.isNone

/-- The loop `for (const task of tasks)`; the flag of the result says whether
an iteration raised. -/
def runTasks (now : Clock) : List Task → TickState → TickState × Bool
  | [], s => (s, false)
  | task :: rest, s =>
    match processTask now s task with
    | none => (s, true)
    | some s1 => runTasks now rest s1

/-- The locals of `checkReminders` before its loop: the aggregate is
`(await this.db.getState('alertState'))?.value || {}`. -/
def initState (stored : Option AlertState) : TickState :=
  { alertState := stored.getD [], stateChanged := false, calls := [] }

/-- The observable outcome of one run of `checkReminders`. -/
structure TickResult where
  calls : List (Task × Int)
  alertState : AlertState
  saved : Option AlertState
  threw : Bool
  deriving DecidableEq, Repr

/-- `Scheduler.checkReminders` (`src/js/app.js` 244-303): `tasks` is the
result of `loadTasks()`, `stored` the value of `getState('alertState')`
(`none` when the key was never written). -/
def checkReminders (now : Clock) (tasks : List Task) (stored : Option AlertState) :
    TickResult :=
  let r := runTasks now tasks (initState stored)
  { calls := r.1.calls
    alertState := r.1.alertState
    saved := if r.2 = false ∧ r.1.stateChanged = true then some r.1.alertState else none
    threw := r.2 }

/-- The content of the state store under the key `alertState` after a run:
the written value, or what was stored before when nothing was written. -/
def persisted (stored : Option AlertState) (r : TickResult) : Option AlertState :=
  match r.saved with
  | some a => some a
  | none => stored

/-- The dispatches of a run, in order. -/
def dispatches (r : TickResult) : List Dispatch :=
  r.calls.map (fun c => triggerAlert c.1 c.2)

/-- The calls of `triggerAlert` made for the task with the given id. -/
def callsFor (id : String) (calls : List (Task × Int)) : List (Task × Int) :=
  calls.filter (fun c => decide (c.1.id = id))

/-- A sequence of runs of `checkReminders`, as `Scheduler.start` schedules
them (`src/js/app.js` 238-242): each run has its own clock reading and its
own result of `loadTasks`, and reads what the run before it left in the
store. -/
def runTicks : List (Clock × List Task) → Option AlertState → Option AlertState
  | [], stored => stored
  | (now, tasks) :: rest, stored =>
    runTicks rest (persisted stored (checkReminders now tasks stored))

/-- The stored level of the task `id` lies in `[0, M]`, or the task has no
entry. -/
def levelWithin (M : Int) (id : String) (stored : Option AlertState) : Prop :=
  ∀ e, (stored.getD []).get id = some e → 0 ≤ e.level ∧ e.level ≤ M

/-- The iteration for `task`, started from the locals `s`, deletes the entry
of the task: the task is completed today and has an entry
(`src/js/app.js` 257-262). -/
def deletesEntry (now : Clock) (s : TickState) (task : Task) : Bool :=
  isCompletedToday now task && (s.alertState.get task.id).isSome

/-- The iteration for `task`, started from the locals `s`, sets the entry of
the task: the task is not completed today, is due, and its level is 0 or the
interval has elapsed (`src/js/app.js` 269-296). -/
def setsEntry (now : Clock) (s : TickState) (task : Task) : Bool :=
  !isCompletedToday now task && jsGe (currentTimeStr now) task.dueTime &&
    match task.escalation with
    | none => false
    | some esc =>
      decide ((lastAlertOf s.alertState task.id).level = 0) ||
        intervalElapsed now.time (lastAlertOf s.alertState task.id).lastTime
          esc.intervalMinutes

/-- During the run over `tasks` from the stored aggregate, some iteration
deletes or sets an entry: the list splits around a task whose iteration,
started from the locals that the iterations before it leave, does so. -/
def entryTouched (now : Clock) (tasks : List Task) (stored : Option AlertState) : Prop :=
  ∃ pre t post, tasks = pre ++ t :: post ∧
    (deletesEntry now (runTasks now pre (initState stored)).1 t = true ∨
      setsEntry now (runTasks now pre (initState stored)).1 t = true)

/-! ## TaskManager: new tasks -/

/-- The argument of `TaskManager.addTask`. The form handler
(`src/js/app.js` 393-399) supplies `title`, `dueTime`, `priority`,
`recurrence` and `intervalMinutes` (`none` is the `NaN` of an empty field);
`completedInstances` is the field a caller may add, which the spread
`...taskData` then copies over the empty default. -/
structure TaskData where
  title : String
  dueTime : Option String
  intervalMinutes : Option Int
  completedInstances : Option (List String)
  deriving DecidableEq, Repr

/-- `TaskManager.addTask` (`src/js/app.js` 182-197); `uuid` is the value of
`crypto.randomUUID()`. The policy is
`{ intervalMinutes: taskData.intervalMinutes || 5, maxSteps: 3 }`. -/
def addTask (now : Clock) (uuid : String) (taskData : TaskData) (db : Database) :
    Task × Database :=
  let task : Task :=
    { id := uuid
      title := taskData.title
      dueTime := taskData.dueTime
      escalation := some
        { intervalMinutes :=
            match taskData.intervalMinutes with
            | some k => if k = 0 then 5 else k
            | none => 5
          maxSteps := 3 }
      completedInstances := taskData.completedInstances.getD []
      updatedAt := now.isoDate ++ "T" ++ now.isoTime }
  (task, saveTask task db)

/-- A sequence of calls `toggleComplete(id)`, each with its clock reading. -/
def toggleMany : List (Clock × String) → Database → Database
  | [], db => db
  | (now, id) :: rest, db => toggleMany rest (toggleComplete now id db)

/-! ## Server: the scheduled scan of `src/api/cron.js` -/

/-- A task as the scan reads it (`src/api/cron.js` 36, 41). -/
structure ServerTask where
  title : String
  dueTime : Option String
  completedToday : Bool
  deriving DecidableEq, Repr

/-- A push subscription; `endpoint` may be missing. -/
structure Subscription where
  endpoint : Option String
  keys : String
  deriving DecidableEq, Repr

/-- The value stored under a user key, `{ subscription, tasks }`
(`src/api/sync.js` 18); either field may be missing. -/
structure UserData where
  subscription : Option Subscription
  tasks : Option (List ServerTask)
  deriving DecidableEq, Repr

/-- The key-value store. -/
abbrev KvStore := List (String × UserData)

/-- `db.get(key)`. -/
def KvStore.get : KvStore → String → Option UserData
  | [], _ => none
  | (k, v) :: rest, key => if k = key then some v else KvStore.get rest key

/-- `db.del(key)`. -/
def KvStore.del : KvStore → String → KvStore
  | [], _ => []
  | (k, v) :: rest, key =>
    if k = key then KvStore.del rest key else (k, v) :: KvStore.del rest key

/-- The key matches the pattern `user:*`: it starts with `user:`. -/
def isUserKey (key : String) : Bool :=
  "user:".data.isPrefixOf key.data

/-- `db.keys('user:*')`. -/
def KvStore.userKeys (db : KvStore) : List String :=
  (db.map Prod.fst).filter isUserKey

/-- The payload handed to `JSON.stringify` (`src/api/cron.js` 42-46). -/
structure PushPayload where
  title : String
  body : String
  tag : String
  deriving DecidableEq, Repr

/-- What `webpush.sendNotification` does: it returns, or it throws an error
whose `statusCode` may be missing. -/
inductive SendOutcome where
  | delivered
  | rejected (statusCode : Option Int)
  deriving DecidableEq, Repr

/-- JavaScript `due <= cur` where `cur` is a string: false when `due` is
missing, and the negation of `cur < due` on two strings. -/
def jsLe (due : Option String) (cur : String) : Bool :=
  match due with
  | none => false
  | some d => !(jsStrLt cur.data d.data)

/-- The list `dueTasks` of `src/api/cron.js` 36. -/
def dueTasks (currentTime : String) (tasks : List ServerTask) : List ServerTask :=
  tasks.filter (fun t => !t.completedToday && jsLe t.dueTime currentTime)

/-- The payload of `src/api/cron.js` 41-46. -/
def reminderPayload (due : List ServerTask) : PushPayload :=
  { title := "Task Reminder"
    body := "You have due tasks: " ++ ", ".intercalate (due.map ServerTask.title)
    tag := "daily-reminder" }

/-- The locals of the scan: the store, the counter and the sends attempted so
far, each with the key of its user. -/
structure CronState where
  db : KvStore
  notificationsSent : Nat
  attempts : List (String × Subscription × PushPayload)
  deriving DecidableEq, Repr

/-- One iteration of the loop of the scan (`src/api/cron.js` 31-59); `send`
is the outcome of `webpush.sendNotification` for the user, the subscription
and the payload. -/
def cronStep (send : String → Subscription → PushPayload → SendOutcome)
    (currentTime : String) (s : CronState) (key : String) : CronState :=
  match s.db.get key with
  | none => s
  | some userData =>
    match userData.tasks, userData.subscription with
    | some tasks, some subscription =>
      if 0 < (dueTasks currentTime tasks).length then
        match send key subscription (reminderPayload (dueTasks currentTime tasks)) with
        | SendOutcome.delivered =>
          { s with
            notificationsSent := s.notificationsSent + 1
            attempts := s.attempts ++
              [(key, subscription, reminderPayload (dueTasks currentTime tasks))] }
        | SendOutcome.rejected statusCode =>
          if statusCode = some 410 then
            { s with
              db := s.db.del key
              attempts := s.attempts ++
                [(key, subscription, reminderPayload (dueTasks currentTime tasks))] }
          else
            { s with
              attempts := s.attempts ++
                [(key, subscription, reminderPayload (dueTasks currentTime tasks))] }
      else s
    | _, _ => s

/-- The loop `for (const key of keys)`. -/
def cronLoop (send : String → Subscription → PushPayload → SendOutcome)
    (currentTime : String) : List String → CronState → CronState
  | [], s => s
  | key :: rest, s => cronLoop send currentTime rest (cronStep send currentTime s key)

/-- The body of the response of the scan. -/
inductive CronBody where
  | error (message : String)
  | done (success : Bool) (notificationsSent : Nat)
  deriving DecidableEq, Repr

/-- The outcome of the scan: the response, the store and the sends
attempted. -/
structure CronResult where
  status : Nat
  body : CronBody
  db : Option KvStore
  attempts : List (String × Subscription × PushPayload)
  deriving DecidableEq, Repr

/-- The handler of `src/api/cron.js` (13-62); `db` is the result of `getDb()`,
`none` when the store is not configured. -/
def cronHandler (send : String → Subscription → PushPayload → SendOutcome) (now : Clock)
    (db : Option KvStore) : CronResult :=
  match db with
  | none => { status := 500, body := CronBody.error "No DB", db := none, attempts := [] }
  | some store =>
    let keys := store.userKeys
    let currentTime := hhmm now.hours now.minutes
    let s := cronLoop send currentTime keys
      { db := store, notificationsSent := 0, attempts := [] }
    { status := 200
      body := CronBody.done true s.notificationsSent
      db := some s.db
      attempts := s.attempts }

/-- The sends attempted for the user with the given key. -/
def attemptsFor (key : String) (attempts : List (String × Subscription × PushPayload)) :
    List (String × Subscription × PushPayload) :=
  attempts.filter (fun a => decide (a.1 = key))

/-- The sends that returned. -/
def delivered (send : String → Subscription → PushPayload → SendOutcome)
    (attempts : List (String × Subscription × PushPayload)) :
    List (String × Subscription × PushPayload) :=
  attempts.filter (fun a => decide (send a.1 a.2.1 a.2.2 = SendOutcome.delivered))

/-! ## Server: `POST /api/subscribe` of `src/server/index.js` -/

/-- The body of the response of the subscribe handler. -/
inductive SubscribeBody where
  | error (message : String)
  | ok
  deriving DecidableEq, Repr

/-- The response of the subscribe handler and the stored list after it. -/
structure SubscribeResult where
  status : Nat
  body : SubscribeBody
  subs : List Subscription
  deriving DecidableEq, Repr

/-- The handler of `POST /api/subscribe` (`src/server/index.js` 33-44):
`sub` is `req.body.subscription` (`none` when it is missing), `stored` the
result of `loadSubs()`. -/
def subscribeHandler (sub : Option Subscription) (stored : List Subscription) :
    SubscribeResult :=
  match sub with
  | none => { status := 400, body := SubscribeBody.error "Missing subscription", subs := stored }
  | some sub =>
    if (stored.find? (fun s => s.endpoint == sub.endpoint)).isNone then
      { status := 201, body := SubscribeBody.ok, subs := stored ++ [sub] }
    else
      { status := 201, body := SubscribeBody.ok, subs := stored }

/-! ## Sample data -/

/-- A clock reading at `09:mm` local time of 5 March 2024, `mm` minutes after
the instant `1709629200000`. -/
def sampleClock (mm : Nat) : Clock :=
  { time := 1709629200000 + 60000 * mm
    hours := 9
    minutes := mm
    isoDate := "2024-03-05"
    isoTime := "09:00:00.000Z" }

/-- A task due at 09:00 with the policy of `addTask`: five minutes, three
steps. -/
def sampleTask (done : List String) : Task :=
  { id := "t1"
    title := "Water the plants"
    dueTime := some "09:00"
    escalation := some { intervalMinutes := 5, maxSteps := 3 }
    completedInstances := done
    updatedAt := "2024-03-04T20:00:00.000Z" }

/-- Runs at 09:00, 09:03, 09:05, 09:11 and 09:20 over the sample task, not
completed. -/
def sampleTicks : List (Clock × List Task) :=
  [(sampleClock 0, [sampleTask []]), (sampleClock 3, [sampleTask []]),
   (sampleClock 5, [sampleTask []]), (sampleClock 11, [sampleTask []]),
   (sampleClock 20, [sampleTask []])]

/-- The clock of scenario A: `mm` minutes after a run at 09:00 local time
that happened at the instant `t0` of the day `day`. -/
def scenarioClock (t0 : Int) (day : String) (mm : Nat) : Clock :=
  { time := t0 + 60000 * mm
    hours := 9
    minutes := mm
    isoDate := day
    isoTime := "09:00:00.000Z" }

/-- The task of scenario A: due at 09:00, five minutes between alerts, three
steps. -/
def scenarioTask (id title : String) (done : List String) : Task :=
  { id := id
    title := title
    dueTime := some "09:00"
    escalation := some { intervalMinutes := 5, maxSteps := 3 }
    completedInstances := done
    updatedAt := "" }

/-- A task due at 10:00, completed on 5 March 2024. -/
def sampleLateTask : Task :=
  { id := "t1"
    title := "Water the plants"
    dueTime := some "10:00"
    escalation := some { intervalMinutes := 5, maxSteps := 3 }
    completedInstances := ["2024-03-05"]
    updatedAt := "2024-03-05T08:30:00.000Z" }

/-- A record without `escalation`, due at 08:00 and not completed. -/
def sampleNoPolicyTask : Task :=
  { id := "t0"
    title := "Stretch"
    dueTime := some "08:00"
    escalation := none
    completedInstances := []
    updatedAt := "2024-03-04T20:00:00.000Z" }

/-- A record without `dueTime`, not completed. -/
def sampleNoDueTask : Task :=
  { id := "t2"
    title := "Read"
    dueTime := none
    escalation := some { intervalMinutes := 5, maxSteps := 3 }
    completedInstances := []
    updatedAt := "2024-03-04T20:00:00.000Z" }

/-- A store with three users at 09:11: one with two due tasks, one whose
subscription is gone, one with nothing due. -/
def sampleStore : KvStore :=
  [("user:a",
      { subscription := some { endpoint := some "https://push.example/a", keys := "ka" }
        tasks := some
          [{ title := "A", dueTime := some "08:00", completedToday := false },
           { title := "Done", dueTime := some "08:30", completedToday := true },
           { title := "B", dueTime := some "09:11", completedToday := false },
           { title := "Later", dueTime := some "09:12", completedToday := false }] }),
   ("user:b",
      { subscription := some { endpoint := some "https://push.example/b", keys := "kb" }
        tasks := some [{ title := "C", dueTime := some "07:00", completedToday := false }] }),
   ("user:c",
      { subscription := some { endpoint := some "https://push.example/c", keys := "kc" }
        tasks := some [{ title := "D", dueTime := some "23:00", completedToday := false }] })]

/-- The sends for `user:b` fail with status 410, the others return. -/
def sampleSend (key : String) (_sub : Subscription) (_payload : PushPayload) : SendOutcome :=
  if key = "user:b" then SendOutcome.rejected (some 410) else SendOutcome.delivered

/-- A clock reading at 21:00 local time of 4 March 2024, twelve hours before
`sampleClock 0`. -/
def sampleEveClock : Clock :=
  { time := 1709586000000
    hours := 21
    minutes := 0
    isoDate := "2024-03-04"
    isoTime := "21:00:00.000Z" }

/-- A clock reading at 08:59 local time of 5 March 2024. -/
def sampleEarlyClock : Clock :=
  { time := 1709629140000
    hours := 8
    minutes := 59
    isoDate := "2024-03-05"
    isoTime := "08:59:00.000Z" }

/-! ## The aggregate as a finite map -/

theorem AlertState.get_del_self (a : AlertState) (id : String) :
    (a.del id).get id = none := by
  induction a with
  | nil => rfl
  | cons p rest ih =>
    obtain ⟨k, v⟩ := p
    by_cases h : k = id
    · simp [AlertState.del, h, ih]
    · simp [AlertState.del, AlertState.get, h, ih]

theorem AlertState.get_del_of_ne (a : AlertState) {id other : String} (h : id ≠ other) :
    (a.del id).get other = a.get other := by
  induction a with
  | nil => rfl
  | cons p rest ih =>
    obtain ⟨k, v⟩ := p
    by_cases hk : k = id
    · have hko : k ≠ other := by rw [hk]; exact h
      simp [AlertState.del, AlertState.get, hk, ih, h]
    · by_cases ho : k = other
      · subst ho
        simp [AlertState.del, AlertState.get, hk]
      · simp [AlertState.del, AlertState.get, hk, ho, ih]

theorem AlertState.get_set_self (a : AlertState) (id : String) (e : AlertEntry) :
    (a.set id e).get id = some e := by
  induction a with
  | nil => simp [AlertState.set, AlertState.get]
  | cons p rest ih =>
    obtain ⟨k, v⟩ := p
    by_cases h : k = id
    · simp [AlertState.set, AlertState.get, h]
    · simp [AlertState.set, AlertState.get, h, ih]

theorem AlertState.get_set_of_ne (a : AlertState) {id other : String} (e : AlertEntry)
    (h : id ≠ other) : (a.set id e).get other = a.get other := by
  induction a with
  | nil => simp [AlertState.set, AlertState.get, h]
  | cons p rest ih =>
    obtain ⟨k, v⟩ := p
    by_cases hk : k = id
    · have hko : k ≠ other := by rw [hk]; exact h
      simp [AlertState.set, AlertState.get, hk, h]
    · by_cases ho : k = other
      · subst ho
        simp [AlertState.set, AlertState.get, hk]
      · simp [AlertState.set, AlertState.get, hk, ho, ih]

/-! ## One iteration and the loop -/

theorem callsFor_append (id : String) (xs ys : List (Task × Int)) :
    callsFor id (xs ++ ys) = callsFor id xs ++ callsFor id ys := by
  simp [callsFor]

/-- An iteration for one task leaves the entry and the calls of every other
id as they were. -/
theorem processTask_frame {now : Clock} {s s1 : TickState} {t : Task}
    (h : processTask now s t = some s1) {id : String} (hid : t.id ≠ id) :
    s1.alertState.get id = s.alertState.get id ∧ callsFor id s1.calls = callsFor id s.calls := by
  unfold processTask at h
  split_ifs at h with h1 h2 h3
  · cases h; exact ⟨AlertState.get_del_of_ne _ hid, rfl⟩
  · cases h; exact ⟨rfl, rfl⟩
  · cases he : t.escalation with
    | none => simp [he] at h
    | some esc =>
      simp only [he] at h
      split_ifs at h with h4
      · cases h
        refine ⟨AlertState.get_set_of_ne _ _ hid, ?_⟩
        simp [callsFor_append, callsFor, hid]
      · cases h; exact ⟨rfl, rfl⟩
  · cases h; exact ⟨rfl, rfl⟩

/-- A task that has an escalation policy does not make its iteration raise. -/
theorem raises_eq_false_of_escalation (now : Clock) {t : Task} (h : t.escalation ≠ none) :
    raises now t = false := by
  cases he : t.escalation with
  | none => exact absurd he h
  | some esc => simp [raises, he]

/-- An iteration returns unless the task is one that makes it raise. -/
theorem processTask_ne_none (now : Clock) (s : TickState) {t : Task}
    (h : raises now t = false) : ∃ s1, processTask now s t = some s1 := by
  unfold processTask
  cases he : t.escalation with
  | none =>
    simp only [raises, he, Option.isNone_none, Bool.and_true, Bool.and_eq_false_imp,
      Bool.not_eq_true', Bool.not_eq_false] at h
    by_cases h1 : isCompletedToday now t = true
    · simp only [h1, if_true]
      split_ifs <;> exact ⟨_, rfl⟩
    · have h2 : jsGe (currentTimeStr now) t.dueTime = false := h (by simpa using h1)
      simp [h1, h2]
  | some esc =>
    simp only []
    split_ifs <;> exact ⟨_, rfl⟩

/-- The loop leaves the entry and the calls of an id that no task of the list
carries as they were. -/
theorem runTasks_frame (now : Clock) (id : String) :
    ∀ (tasks : List Task) (s : TickState), id ∉ tasks.map Task.id →
      (runTasks now tasks s).1.alertState.get id = s.alertState.get id ∧
      callsFor id (runTasks now tasks s).1.calls = callsFor id s.calls := by
  intro tasks
  induction tasks with
  | nil => intro s _; exact ⟨rfl, rfl⟩
  | cons x rest ih =>
    intro s hid
    simp only [List.map_cons, List.mem_cons, not_or] at hid
    unfold runTasks
    cases hp : processTask now s x with
    | none => exact ⟨rfl, rfl⟩
    | some sx =>
      simp only []
      have hne : x.id ≠ id := fun h => hid.1 h.symm
      have hf := processTask_frame hp hne
      have hr := ih sx hid.2
      exact ⟨hr.1.trans hf.1, hr.2.trans hf.2⟩

/-- The loop does not raise on a list in which no task makes its iteration
raise. -/
theorem runTasks_not_threw (now : Clock) :
    ∀ (tasks : List Task) (s : TickState), (∀ t ∈ tasks, raises now t = false) →
      (runTasks now tasks s).2 = false := by
  intro tasks
  induction tasks with
  | nil => intro s _; rfl
  | cons x rest ih =>
    intro s h
    obtain ⟨sx, hx⟩ := processTask_ne_none now s (h x (List.mem_cons_self x rest))
    unfold runTasks
    simp only [hx]
    exact ih sx (fun t ht => h t (List.mem_cons_of_mem x ht))

/-- The iteration that a run makes for a task of the list: it starts from
locals that agree with the first ones on this task's id, and what it leaves
for this id is what the whole loop leaves. -/
theorem runTasks_at (now : Clock) :
    ∀ (tasks : List Task) (s : TickState) (t : Task),
      (tasks.map Task.id).Nodup → (∀ x ∈ tasks, raises now x = false) → t ∈ tasks →
      ∃ s0 s1, processTask now s0 t = some s1 ∧
        s0.alertState.get t.id = s.alertState.get t.id ∧
        callsFor t.id s0.calls = callsFor t.id s.calls ∧
        (runTasks now tasks s).1.alertState.get t.id = s1.alertState.get t.id ∧
        callsFor t.id (runTasks now tasks s).1.calls = callsFor t.id s1.calls := by
  intro tasks
  induction tasks with
  | nil => intro s t _ _ ht; exact absurd ht (List.not_mem_nil t)
  | cons x rest ih =>
    intro s t hnd hesc ht
    simp only [List.map_cons, List.nodup_cons] at hnd
    obtain ⟨sx, hx⟩ := processTask_ne_none now s (hesc x (List.mem_cons_self x rest))
    have hrun : runTasks now (x :: rest) s = runTasks now rest sx := by
      conv_lhs => unfold runTasks
      simp only [hx]
    rw [hrun]
    rcases List.mem_cons.mp ht with rfl | hmem
    · have hf := runTasks_frame now t.id rest sx hnd.1
      exact ⟨s, sx, hx, rfl, rfl, hf.1, hf.2⟩
    · have hne : x.id ≠ t.id := by
        intro heq
        exact hnd.1 (heq ▸ List.mem_map_of_mem Task.id hmem)
      obtain ⟨s0, s1, hp, hg, hc, hfg, hfc⟩ :=
        ih sx t hnd.2 (fun y hy => hesc y (List.mem_cons_of_mem x hy)) hmem
      have hf := processTask_frame hx hne
      exact ⟨s0, s1, hp, hg.trans hf.1, hc.trans hf.2, hfg, hfc⟩

/-- An iteration never lowers the flag, and one that leaves it low has
changed nothing. -/
theorem processTask_flag {now : Clock} {s s1 : TickState} {t : Task}
    (h : processTask now s t = some s1) :
    (s.stateChanged = true → s1.stateChanged = true) ∧
      (s1.stateChanged = false → s1 = s) := by
  unfold processTask at h
  split_ifs at h with h1 h2 h3
  · cases h; exact ⟨fun _ => rfl, fun hc => by simp at hc⟩
  · cases h; exact ⟨id, fun _ => rfl⟩
  · cases he : t.escalation with
    | none => simp [he] at h
    | some esc =>
      simp only [he] at h
      split_ifs at h with h4
      · cases h; exact ⟨fun _ => rfl, fun hc => by simp at hc⟩
      · cases h; exact ⟨id, fun _ => rfl⟩
  · cases h; exact ⟨id, fun _ => rfl⟩

/-- A loop that ends with the flag low has changed nothing. -/
theorem runTasks_flag (now : Clock) :
    ∀ (tasks : List Task) (s : TickState),
      (s.stateChanged = true → (runTasks now tasks s).1.stateChanged = true) ∧
      ((runTasks now tasks s).1.stateChanged = false → (runTasks now tasks s).1 = s) := by
  intro tasks
  induction tasks with
  | nil => intro s; exact ⟨id, fun _ => rfl⟩
  | cons x rest ih =>
    intro s
    unfold runTasks
    cases hp : processTask now s x with
    | none => exact ⟨id, fun _ => rfl⟩
    | some sx =>
      simp only []
      have hf := processTask_flag hp
      have hr := ih sx
      refine ⟨fun hs => hr.1 (hf.1 hs), fun hc => ?_⟩
      have h1 := hr.2 hc
      have h2 : sx.stateChanged = false := by rw [← h1]; exact hc
      rw [h1]; exact hf.2 h2

/-- After a run that did not raise, the store holds the aggregate the run
ended with. -/
theorem persisted_eq (now : Clock) (tasks : List Task) (stored : Option AlertState)
    (h : (checkReminders now tasks stored).threw = false) :
    (persisted stored (checkReminders now tasks stored)).getD [] =
      (checkReminders now tasks stored).alertState := by
  have hthrew : (runTasks now tasks (initState stored)).2 = false := h
  cases hc : (runTasks now tasks (initState stored)).1.stateChanged with
  | true => simp [persisted, checkReminders, hthrew, hc]
  | false =>
    have h1 := (runTasks_flag now tasks (initState stored)).2 hc
    simp only [persisted, checkReminders, hthrew, hc, h1]
    simp [initState]

/-- An iteration for a task that is neither completed today nor due (a task
without `dueTime` is never due) changes nothing. -/
theorem processTask_skip (now : Clock) (s : TickState) (t : Task)
    (hnot : isCompletedToday now t = false)
    (hdue : jsGe (currentTimeStr now) t.dueTime = false) :
    processTask now s t = some s := by
  simp [processTask, hnot, hdue]

/-! ## Runs that may raise -/

/-- The loop, seen from a task of the list, whether or not it raises: the
entry and the calls of the task are as they were (the loop ended before the
iteration for the task returned), or they are what that iteration left. -/
theorem runTasks_at_any (now : Clock) :
    ∀ (tasks : List Task) (s : TickState) (t : Task),
      (tasks.map Task.id).Nodup → t ∈ tasks →
      ((runTasks now tasks s).1.alertState.get t.id = s.alertState.get t.id ∧
        callsFor t.id (runTasks now tasks s).1.calls = callsFor t.id s.calls) ∨
      ∃ s0 s1, processTask now s0 t = some s1 ∧
        s0.alertState.get t.id = s.alertState.get t.id ∧
        callsFor t.id s0.calls = callsFor t.id s.calls ∧
        (runTasks now tasks s).1.alertState.get t.id = s1.alertState.get t.id ∧
        callsFor t.id (runTasks now tasks s).1.calls = callsFor t.id s1.calls := by
  intro tasks
  induction tasks with
  | nil => intro s t _ ht; exact absurd ht (List.not_mem_nil t)
  | cons x rest ih =>
    intro s t hnd ht
    simp only [List.map_cons, List.nodup_cons] at hnd
    cases hx : processTask now s x with
    | none =>
      have hrun : runTasks now (x :: rest) s = (s, true) := by
        conv_lhs => unfold runTasks
        simp only [hx]
      rw [hrun]
      exact Or.inl ⟨rfl, rfl⟩
    | some sx =>
      have hrun : runTasks now (x :: rest) s = runTasks now rest sx := by
        conv_lhs => unfold runTasks
        simp only [hx]
      rw [hrun]
      rcases List.mem_cons.mp ht with rfl | hmem
      · have hf := runTasks_frame now t.id rest sx hnd.1
        exact Or.inr ⟨s, sx, hx, rfl, rfl, hf.1, hf.2⟩
      · have hne : x.id ≠ t.id := by
          intro heq
          exact hnd.1 (heq ▸ List.mem_map_of_mem Task.id hmem)
        have hf := processTask_frame hx hne
        rcases ih sx t hnd.2 hmem with ⟨hg, hc⟩ | ⟨s0, s1, hp, hg, hc, hfg, hfc⟩
        · exact Or.inl ⟨hg.trans hf.1, hc.trans hf.2⟩
        · exact Or.inr ⟨s0, s1, hp, hg.trans hf.1, hc.trans hf.2, hfg, hfc⟩

/-- After a run the store holds what it held, or the aggregate the run ended
with. -/
theorem persisted_cases (now : Clock) (tasks : List Task) (stored : Option AlertState) :
    persisted stored (checkReminders now tasks stored) = stored ∨
      persisted stored (checkReminders now tasks stored) =
        some (checkReminders now tasks stored).alertState := by
  simp only [persisted, checkReminders]
  split_ifs
  · exact Or.inr rfl
  · exact Or.inl rfl

/-- An entry that the run leaves in the aggregate as it was stored is in the
store after the run as it was. -/
theorem persisted_get_of_unchanged (now : Clock) (tasks : List Task)
    (stored : Option AlertState) (id : String)
    (h : (checkReminders now tasks stored).alertState.get id = (stored.getD []).get id) :
    ((persisted stored (checkReminders now tasks stored)).getD []).get id =
      (stored.getD []).get id := by
  rcases persisted_cases now tasks stored with hp | hp
  · rw [hp]
  · rw [hp]; exact h

/-- A task not completed today and not due, in any list with distinct ids:
entry unchanged, in the aggregate and in the store, and no call. -/
theorem tick_not_due_any (now : Clock) (tasks : List Task) (stored : Option AlertState)
    (t : Task) (hids : (tasks.map Task.id).Nodup) (ht : t ∈ tasks)
    (hnot : isCompletedToday now t = false)
    (hdue : jsGe (currentTimeStr now) t.dueTime = false) :
    (checkReminders now tasks stored).alertState.get t.id = (stored.getD []).get t.id ∧
      ((persisted stored (checkReminders now tasks stored)).getD []).get t.id =
        (stored.getD []).get t.id ∧
      callsFor t.id (checkReminders now tasks stored).calls = [] := by
  have hboth : (checkReminders now tasks stored).alertState.get t.id =
        (stored.getD []).get t.id ∧
      callsFor t.id (checkReminders now tasks stored).calls = [] := by
    rcases runTasks_at_any now tasks (initState stored) t hids ht with
      ⟨hg, hc⟩ | ⟨s0, s1, hp, hg, hc, hfg, hfc⟩
    · exact ⟨hg, hc⟩
    · rw [processTask_skip now s0 t hnot hdue] at hp
      cases hp
      exact ⟨hfg.trans hg, hfc.trans hc⟩
  exact ⟨hboth.1, persisted_get_of_unchanged now tasks stored t.id hboth.1, hboth.2⟩

/-- A due task, not completed today, whose escalation test fails, in any list
with distinct ids: entry unchanged, in the aggregate and in the store, and no
call. -/
theorem tick_hold_any (now : Clock) (tasks : List Task) (stored : Option AlertState)
    (t : Task) (esc : Escalation) (hids : (tasks.map Task.id).Nodup) (ht : t ∈ tasks)
    (hnot : isCompletedToday now t = false)
    (hdue : jsGe (currentTimeStr now) t.dueTime = true)
    (hesc : t.escalation = some esc)
    (hstay : ¬((lastAlertOf (stored.getD []) t.id).level = 0 ∨
      intervalElapsed now.time (lastAlertOf (stored.getD []) t.id).lastTime
        esc.intervalMinutes = true)) :
    (checkReminders now tasks stored).alertState.get t.id = (stored.getD []).get t.id ∧
      ((persisted stored (checkReminders now tasks stored)).getD []).get t.id =
        (stored.getD []).get t.id ∧
      callsFor t.id (checkReminders now tasks stored).calls = [] := by
  have hboth : (checkReminders now tasks stored).alertState.get t.id =
        (stored.getD []).get t.id ∧
      callsFor t.id (checkReminders now tasks stored).calls = [] := by
    rcases runTasks_at_any now tasks (initState stored) t hids ht with
      ⟨hg, hc⟩ | ⟨s0, s1, hp, hg, hc, hfg, hfc⟩
    · exact ⟨hg, hc⟩
    · have hl : lastAlertOf s0.alertState t.id = lastAlertOf (stored.getD []) t.id := by
        unfold lastAlertOf
        rw [hg]
        rfl
      unfold processTask at hp
      simp only [hnot, hdue, hesc, hl, if_true, Bool.false_eq_true, if_false] at hp
      rw [if_neg hstay] at hp
      cases hp
      exact ⟨hfg.trans hg, hfc.trans hc⟩
  exact ⟨hboth.1, persisted_get_of_unchanged now tasks stored t.id hboth.1, hboth.2⟩

/-! ## One run, seen from one task -/

/-- The iteration that `checkReminders` makes for a task of the list, with
the facts that tie it to the stored aggregate and to the outcome of the run. -/
theorem tick_at (now : Clock) (tasks : List Task) (stored : Option AlertState) (t : Task)
    (hids : (tasks.map Task.id).Nodup) (hraise : ∀ x ∈ tasks, raises now x = false)
    (ht : t ∈ tasks) :
    ∃ s0 s1, processTask now s0 t = some s1 ∧
      s0.alertState.get t.id = (stored.getD []).get t.id ∧
      callsFor t.id s0.calls = [] ∧
      (checkReminders now tasks stored).alertState.get t.id = s1.alertState.get t.id ∧
      callsFor t.id (checkReminders now tasks stored).calls = callsFor t.id s1.calls := by
  obtain ⟨s0, s1, hp, hg, hc, hfg, hfc⟩ :=
    runTasks_at now tasks (initState stored) t hids hraise ht
  exact ⟨s0, s1, hp, hg, hc, hfg, hfc⟩

/-- A run on a list in which no task makes its iteration raise returns
normally. -/
theorem tick_not_threw (now : Clock) (tasks : List Task) (stored : Option AlertState)
    (hraise : ∀ x ∈ tasks, raises now x = false) :
    (checkReminders now tasks stored).threw = false :=
  runTasks_not_threw now tasks (initState stored) hraise

/-- A task completed today: no entry and no call after the run. -/
theorem tick_completed (now : Clock) (tasks : List Task) (stored : Option AlertState)
    (t : Task) (hids : (tasks.map Task.id).Nodup)
    (hraise : ∀ x ∈ tasks, raises now x = false) (ht : t ∈ tasks)
    (hdone : isCompletedToday now t = true) :
    (checkReminders now tasks stored).alertState.get t.id = none ∧
      callsFor t.id (checkReminders now tasks stored).calls = [] := by
  obtain ⟨s0, s1, hp, hg, hc, hfg, hfc⟩ := tick_at now tasks stored t hids hraise ht
  rw [hfg, hfc]
  unfold processTask at hp
  simp only [hdone, if_true] at hp
  split_ifs at hp with h1
  · cases hp
    exact ⟨AlertState.get_del_self _ _, hc⟩
  · cases hp
    refine ⟨?_, hc⟩
    cases hget : s0.alertState.get t.id with
    | none => rfl
    | some e => simp [hget] at h1

/-- A task not completed today and not due: entry unchanged, no call. -/
theorem tick_not_due (now : Clock) (tasks : List Task) (stored : Option AlertState)
    (t : Task) (hids : (tasks.map Task.id).Nodup)
    (hraise : ∀ x ∈ tasks, raises now x = false) (ht : t ∈ tasks)
    (hnot : isCompletedToday now t = false)
    (hdue : jsGe (currentTimeStr now) t.dueTime = false) :
    (checkReminders now tasks stored).alertState.get t.id = (stored.getD []).get t.id ∧
      callsFor t.id (checkReminders now tasks stored).calls = [] := by
  obtain ⟨s0, s1, hp, hg, hc, hfg, hfc⟩ := tick_at now tasks stored t hids hraise ht
  rw [hfg, hfc]
  unfold processTask at hp
  simp [hnot, hdue] at hp
  cases hp
  exact ⟨hg, hc⟩

/-- A due task, not completed today, whose escalation test passes: the entry
is rewritten and `triggerAlert` is called once, at the new level. -/
theorem tick_escalate (now : Clock) (tasks : List Task) (stored : Option AlertState)
    (t : Task) (esc : Escalation) (hids : (tasks.map Task.id).Nodup)
    (hraise : ∀ x ∈ tasks, raises now x = false) (ht : t ∈ tasks)
    (hnot : isCompletedToday now t = false)
    (hdue : jsGe (currentTimeStr now) t.dueTime = true)
    (hesc : t.escalation = some esc)
    (hgo : (lastAlertOf (stored.getD []) t.id).level = 0 ∨
      intervalElapsed now.time (lastAlertOf (stored.getD []) t.id).lastTime
        esc.intervalMinutes = true) :
    (checkReminders now tasks stored).alertState.get t.id =
        some { level := min ((lastAlertOf (stored.getD []) t.id).level + 1) esc.maxSteps
               lastTime := now.time } ∧
      callsFor t.id (checkReminders now tasks stored).calls =
        [(t, min ((lastAlertOf (stored.getD []) t.id).level + 1) esc.maxSteps)] := by
  obtain ⟨s0, s1, hp, hg, hc, hfg, hfc⟩ := tick_at now tasks stored t hids hraise ht
  rw [hfg, hfc]
  have hl : lastAlertOf s0.alertState t.id = lastAlertOf (stored.getD []) t.id := by
    unfold lastAlertOf; rw [hg]
  unfold processTask at hp
  simp only [hnot, hdue, hesc, hl, if_true, Bool.false_eq_true, if_false] at hp
  rw [if_pos hgo] at hp
  cases hp
  refine ⟨AlertState.get_set_self _ _ _, ?_⟩
  simp [callsFor_append, hc]
  simp [callsFor]

/-- A due task, not completed today, whose escalation test fails: entry
unchanged, no call. -/
theorem tick_hold (now : Clock) (tasks : List Task) (stored : Option AlertState)
    (t : Task) (esc : Escalation) (hids : (tasks.map Task.id).Nodup)
    (hraise : ∀ x ∈ tasks, raises now x = false) (ht : t ∈ tasks)
    (hnot : isCompletedToday now t = false)
    (hdue : jsGe (currentTimeStr now) t.dueTime = true)
    (hesc : t.escalation = some esc)
    (hstay : ¬((lastAlertOf (stored.getD []) t.id).level = 0 ∨
      intervalElapsed now.time (lastAlertOf (stored.getD []) t.id).lastTime
        esc.intervalMinutes = true)) :
    (checkReminders now tasks stored).alertState.get t.id = (stored.getD []).get t.id ∧
      callsFor t.id (checkReminders now tasks stored).calls = [] := by
  obtain ⟨s0, s1, hp, hg, hc, hfg, hfc⟩ := tick_at now tasks stored t hids hraise ht
  rw [hfg, hfc]
  have hl : lastAlertOf s0.alertState t.id = lastAlertOf (stored.getD []) t.id := by
    unfold lastAlertOf; rw [hg]
  unfold processTask at hp
  simp only [hnot, hdue, hesc, hl, if_true, Bool.false_eq_true, if_false] at hp
  rw [if_neg hstay] at hp
  cases hp
  exact ⟨hg, hc⟩

/-- The integer form of the interval test agrees with the quotient
`(now - lastTime) / 60000` compared with `intervalMinutes`. -/
theorem intervalElapsed_iff (now last k : Int) :
    intervalElapsed now last k = true ↔ (k : ℚ) ≤ ((now - last : Int) : ℚ) / 60000 := by
  unfold intervalElapsed
  rw [decide_eq_true_iff, le_div_iff₀ (by norm_num : (0 : ℚ) < 60000)]
  constructor
  · intro h; exact_mod_cast h
  · intro h; exact_mod_cast h

/-! ## Runs that do not raise, and the hold -/

/-- On a task list with distinct ids on which the loop does not raise, a task
whose `completedInstances` contains today's date has, after one run of
`checkReminders`, no entry under its id, neither in the aggregate the run
ends with nor in the store, and `triggerAlert` was not called for it,
whatever its due time, its escalation policy and its previous entry are. -/
theorem completed_task_has_no_entry (now : Clock) (tasks : List Task)
    (stored : Option AlertState) (t : Task)
    (hids : (tasks.map Task.id).Nodup) (hraise : ∀ x ∈ tasks, raises now x = false)
    (ht : t ∈ tasks) (hdone : today now ∈ t.completedInstances) :
    (checkReminders now tasks stored).alertState.get t.id = none ∧
      ((persisted stored (checkReminders now tasks stored)).getD []).get t.id = none ∧
      callsFor t.id (checkReminders now tasks stored).calls = [] := by
  have hc : isCompletedToday now t = true := by
    simp [isCompletedToday, hdone]
  have h := tick_completed now tasks stored t hids hraise ht hc
  rw [persisted_eq now tasks stored (tick_not_threw now tasks stored hraise)]
  exact ⟨h.1, h.1, h.2⟩

theorem completed_task_has_no_entry_witness :
    today (sampleClock 11) ∈ (sampleTask ["2024-03-05"]).completedInstances ∧
      AlertState.get [("t1", { level := 2, lastTime := 1709629500000 })] "t1" =
        some { level := 2, lastTime := 1709629500000 } ∧
      ((persisted (some [("t1", { level := 2, lastTime := 1709629500000 })])
        (checkReminders (sampleClock 11) [sampleTask ["2024-03-05"]]
          (some [("t1", { level := 2, lastTime := 1709629500000 })]))).getD []).get "t1" = none :=
  ⟨by decide, by decide,
    (completed_task_has_no_entry (sampleClock 11) [sampleTask ["2024-03-05"]]
      (some [("t1", { level := 2, lastTime := 1709629500000 })]) (sampleTask ["2024-03-05"])
      (by decide) (by decide) (by decide) (by decide)).2.1⟩

/-- On a task list with distinct ids on which the loop does not raise, for a
task that is not completed today, whose due time has passed
(`currentTimeStr >= dueTime`), whose `maxSteps` is positive and which has no
entry, or an entry of level 0: one run of `checkReminders` at `now` sets its
entry to `{ level: 1, lastTime: now }` and calls `triggerAlert` for it exactly
once, with level 1, for every `intervalMinutes` and every clock. -/
theorem first_alert_is_level_one (now : Clock) (tasks : List Task)
    (stored : Option AlertState) (t : Task) (esc : Escalation)
    (hids : (tasks.map Task.id).Nodup) (hraise : ∀ x ∈ tasks, raises now x = false)
    (ht : t ∈ tasks) (hnot : today now ∉ t.completedInstances)
    (hdue : jsGe (currentTimeStr now) t.dueTime = true)
    (hesc : t.escalation = some esc) (hmax : 0 < esc.maxSteps)
    (hprev : ∀ e, (stored.getD []).get t.id = some e → e.level = 0) :
    (checkReminders now tasks stored).alertState.get t.id =
        some { level := 1, lastTime := now.time } ∧
      ((persisted stored (checkReminders now tasks stored)).getD []).get t.id =
        some { level := 1, lastTime := now.time } ∧
      (checkReminders now tasks stored).saved = some (checkReminders now tasks stored).alertState ∧
      callsFor t.id (checkReminders now tasks stored).calls = [(t, 1)] := by
  have hc : isCompletedToday now t = false := by
    simp [isCompletedToday, hnot]
  have hl : (lastAlertOf (stored.getD []) t.id).level = 0 := by
    unfold lastAlertOf
    cases hg : (stored.getD []).get t.id with
    | none => rfl
    | some e => exact hprev e hg
  have h := tick_escalate now tasks stored t esc hids hraise ht hc hdue hesc (Or.inl hl)
  have hmin : min ((lastAlertOf (stored.getD []) t.id).level + 1) esc.maxSteps = 1 := by
    rw [hl]; exact min_eq_left (by omega)
  rw [hmin] at h
  have hthrew := tick_not_threw now tasks stored hraise
  have hper := persisted_eq now tasks stored hthrew
  refine ⟨h.1, by rw [hper]; exact h.1, ?_, h.2⟩
  cases hs : (checkReminders now tasks stored).saved with
  | some a =>
    have : (persisted stored (checkReminders now tasks stored)).getD [] = a := by
      simp [persisted, hs]
    rw [← hper, this]
  | none =>
    exfalso
    have hflag : (runTasks now tasks (initState stored)).1.stateChanged = false := by
      have hthrew2 : (runTasks now tasks (initState stored)).2 = false := hthrew
      cases hf : (runTasks now tasks (initState stored)).1.stateChanged with
      | false => rfl
      | true => simp [checkReminders, hthrew2, hf] at hs
    have hsame := (runTasks_flag now tasks (initState stored)).2 hflag
    have hcalls : (checkReminders now tasks stored).calls = [] := by
      show (runTasks now tasks (initState stored)).1.calls = []
      rw [hsame]; rfl
    rw [hcalls] at h
    simp [callsFor] at h

theorem first_alert_is_level_one_witness :
    jsGe (currentTimeStr (sampleClock 47)) (sampleTask []).dueTime = true ∧
      (checkReminders (sampleClock 47) [sampleTask []] none).alertState.get "t1" =
        some { level := 1, lastTime := 1709632020000 } ∧
      callsFor "t1" (checkReminders (sampleClock 47) [sampleTask []] none).calls =
        [(sampleTask [], 1)] :=
  ⟨by decide,
    (first_alert_is_level_one (sampleClock 47) [sampleTask []] none (sampleTask [])
      { intervalMinutes := 5, maxSteps := 3 }
      (by decide) (by decide) (by decide) (by decide) (by decide) rfl (by decide)
      (by intro e he; simp [AlertState.get] at he)).1,
    (first_alert_is_level_one (sampleClock 47) [sampleTask []] none (sampleTask [])
      { intervalMinutes := 5, maxSteps := 3 }
      (by decide) (by decide) (by decide) (by decide) (by decide) rfl (by decide)
      (by intro e he; simp [AlertState.get] at he)).2.2.2⟩

/-- C3: a due task, not completed today, whose entry has a level above 0, in
any task list with distinct ids: when
`(now - lastTime) / 60000 < intervalMinutes`, one run of `checkReminders`
leaves its entry (level and lastTime) as it was, in the aggregate and in the
store, and does not call `triggerAlert` for it; and a run after which the
level of the entry is another one had
`(now - lastTime) / 60000 >= intervalMinutes`. -/
theorem hold_within_interval (now : Clock) (tasks : List Task)
    (stored : Option AlertState) (t : Task) (esc : Escalation) (e : AlertEntry)
    (hids : (tasks.map Task.id).Nodup)
    (ht : t ∈ tasks) (hnot : today now ∉ t.completedInstances)
    (hdue : jsGe (currentTimeStr now) t.dueTime = true)
    (hesc : t.escalation = some esc)
    (hprev : (stored.getD []).get t.id = some e) (hlevel : 0 < e.level) :
    ((((now.time - e.lastTime : Int) : ℚ) / 60000 < (esc.intervalMinutes : ℚ)) →
        (checkReminders now tasks stored).alertState.get t.id = some e ∧
        ((persisted stored (checkReminders now tasks stored)).getD []).get t.id = some e ∧
        callsFor t.id (checkReminders now tasks stored).calls = []) ∧
      (((checkReminders now tasks stored).alertState.get t.id).map AlertEntry.level
          ≠ some e.level →
        (esc.intervalMinutes : ℚ) ≤ ((now.time - e.lastTime : Int) : ℚ) / 60000) := by
  have hc : isCompletedToday now t = false := by
    simp [isCompletedToday, hnot]
  have hl : lastAlertOf (stored.getD []) t.id = e := by
    unfold lastAlertOf; rw [hprev]; rfl
  have hearly : (((now.time - e.lastTime : Int) : ℚ) / 60000 < (esc.intervalMinutes : ℚ)) →
      (checkReminders now tasks stored).alertState.get t.id = some e ∧
      ((persisted stored (checkReminders now tasks stored)).getD []).get t.id = some e ∧
      callsFor t.id (checkReminders now tasks stored).calls = [] := by
    intro hlt
    have hstay : ¬((lastAlertOf (stored.getD []) t.id).level = 0 ∨
        intervalElapsed now.time (lastAlertOf (stored.getD []) t.id).lastTime
          esc.intervalMinutes = true) := by
      rw [hl, intervalElapsed_iff]
      rintro (h0 | hge)
      · omega
      · exact absurd hge (not_le.mpr hlt)
    have h := tick_hold_any now tasks stored t esc hids ht hc hdue hesc hstay
    rw [hprev] at h
    exact h
  refine ⟨hearly, fun hchg => ?_⟩
  by_contra hlt
  have h := hearly (not_le.mp hlt)
  rw [h.1] at hchg
  exact hchg rfl

theorem hold_within_interval_witness :
    (((sampleClock 3).time - 1709629200000 : Int) : ℚ) / 60000 < ((5 : Int) : ℚ) ∧
      (checkReminders (sampleClock 3) [sampleTask [], sampleNoPolicyTask]
        (some [("t1", { level := 1, lastTime := 1709629200000 })])).alertState.get "t1" =
        some { level := 1, lastTime := 1709629200000 } ∧
      callsFor "t1" (checkReminders (sampleClock 3) [sampleTask [], sampleNoPolicyTask]
        (some [("t1", { level := 1, lastTime := 1709629200000 })])).calls = [] :=
  have hw : (((sampleClock 3).time - 1709629200000 : Int) : ℚ) / 60000 < ((5 : Int) : ℚ) := by
    simp only [sampleClock]; norm_num
  ⟨hw,
    ((hold_within_interval (sampleClock 3) [sampleTask [], sampleNoPolicyTask]
      (some [("t1", { level := 1, lastTime := 1709629200000 })]) (sampleTask [])
      { intervalMinutes := 5, maxSteps := 3 } { level := 1, lastTime := 1709629200000 }
      (by decide) (by decide) (by decide) (by decide) rfl (by decide)
      (by decide)).1 hw).1,
    ((hold_within_interval (sampleClock 3) [sampleTask [], sampleNoPolicyTask]
      (some [("t1", { level := 1, lastTime := 1709629200000 })]) (sampleTask [])
      { intervalMinutes := 5, maxSteps := 3 } { level := 1, lastTime := 1709629200000 }
      (by decide) (by decide) (by decide) (by decide) rfl (by decide)
      (by decide)).1 hw).2.2⟩

/-! ## Sequences of runs -/

theorem runTicks_append (a b : List (Clock × List Task)) :
    ∀ stored : Option AlertState, runTicks (a ++ b) stored = runTicks b (runTicks a stored) := by
  induction a with
  | nil => intro stored; rfl
  | cons x rest ih =>
    intro stored
    obtain ⟨now, tasks⟩ := x
    simp only [List.cons_append, runTicks]
    exact ih _

/-- What an iteration does to the calls: nothing, or it adds the call for its
task at the next level and writes the entry of the task. -/
theorem processTask_calls {now : Clock} {s s1 : TickState} {t : Task}
    (h : processTask now s t = some s1) :
    s1.calls = s.calls ∨
      ∃ esc, t.escalation = some esc ∧
        s1.calls = s.calls ++
          [(t, min ((lastAlertOf s.alertState t.id).level + 1) esc.maxSteps)] ∧
        s1.alertState.get t.id =
          some { level := min ((lastAlertOf s.alertState t.id).level + 1) esc.maxSteps
                 lastTime := now.time } := by
  unfold processTask at h
  split_ifs at h with h1 h2 h3
  · cases h; exact Or.inl rfl
  · cases h; exact Or.inl rfl
  · cases he : t.escalation with
    | none => simp [he] at h
    | some esc =>
      simp only [he] at h
      split_ifs at h with h4
      · cases h
        exact Or.inr ⟨esc, rfl, rfl, AlertState.get_set_self _ _ _⟩
      · cases h; exact Or.inl rfl
  · cases h; exact Or.inl rfl

/-- The calls made before the loop are among the calls after it. -/
theorem runTasks_calls_subset (now : Clock) :
    ∀ (tasks : List Task) (s : TickState) (c : Task × Int),
      c ∈ s.calls → c ∈ (runTasks now tasks s).1.calls := by
  intro tasks
  induction tasks with
  | nil => intro s c hc; exact hc
  | cons x rest ih =>
    intro s c hc
    unfold runTasks
    cases hx : processTask now s x with
    | none => exact hc
    | some sx =>
      simp only []
      refine ih sx c ?_
      rcases processTask_calls hx with h | ⟨esc, _, h, _⟩
      · rw [h]; exact hc
      · rw [h]; exact List.mem_append_left _ hc

/-- A call made by the loop is for a task of the list. -/
theorem runTasks_calls_mem (now : Clock) :
    ∀ (tasks : List Task) (s : TickState) (c : Task × Int),
      c ∈ (runTasks now tasks s).1.calls → c ∈ s.calls ∨ c.1 ∈ tasks := by
  intro tasks
  induction tasks with
  | nil => intro s c hc; exact Or.inl hc
  | cons x rest ih =>
    intro s c hc
    unfold runTasks at hc
    cases hx : processTask now s x with
    | none =>
      simp only [hx] at hc
      exact Or.inl hc
    | some sx =>
      simp only [hx] at hc
      rcases ih sx c hc with h | h
      · rcases processTask_calls hx with hs | ⟨esc, _, hs, _⟩
        · rw [hs] at h; exact Or.inl h
        · rw [hs] at h
          rcases List.mem_append.mp h with h1 | h1
          · exact Or.inl h1
          · simp only [List.mem_singleton] at h1
            exact Or.inr (by rw [h1]; exact List.mem_cons_self _ _)
      · exact Or.inr (List.mem_cons_of_mem _ h)

/-- The loop over a list whose first part does not raise goes on with the
rest from what the first part left. -/
theorem runTasks_append_of_not_raises (now : Clock) (rest : List Task) :
    ∀ (before : List Task) (s : TickState), (∀ x ∈ before, raises now x = false) →
      runTasks now (before ++ rest) s = runTasks now rest (runTasks now before s).1 := by
  intro before
  induction before with
  | nil => intro s _; rfl
  | cons x more ih =>
    intro s h
    obtain ⟨sx, hx⟩ := processTask_ne_none now s (h x (List.mem_cons_self x more))
    have h1 : runTasks now (x :: more ++ rest) s = runTasks now (more ++ rest) sx := by
      simp only [List.cons_append]
      conv_lhs => unfold runTasks
      simp only [hx]
    have h2 : runTasks now (x :: more) s = runTasks now more sx := by
      conv_lhs => unfold runTasks
      simp only [hx]
    rw [h1, h2]
    exact ih sx (fun y hy => h y (List.mem_cons_of_mem x hy))

/-- An iteration keeps the level of a task within `[0, M]` when the task of
the iteration, if it is that task, carries `maxSteps = M`. -/
theorem processTask_levelWithin {now : Clock} {s s1 : TickState} {t : Task}
    (h : processTask now s t = some s1) (id : String) (M : Int) (hM : 0 < M)
    (hmax : t.id = id → t.escalation.map Escalation.maxSteps = some M)
    (hin : ∀ e, s.alertState.get id = some e → 0 ≤ e.level ∧ e.level ≤ M) :
    ∀ e, s1.alertState.get id = some e → 0 ≤ e.level ∧ e.level ≤ M := by
  intro e he
  by_cases hid : t.id = id
  · subst hid
    have hprev : 0 ≤ (lastAlertOf s.alertState t.id).level ∧
        (lastAlertOf s.alertState t.id).level ≤ M := by
      unfold lastAlertOf
      cases hg : s.alertState.get t.id with
      | none => exact ⟨le_refl _, le_of_lt hM⟩
      | some e0 => exact hin e0 hg
    unfold processTask at h
    split_ifs at h with h1 h2 h3
    · cases h
      rw [AlertState.get_del_self] at he
      cases he
    · cases h; exact hin e he
    · cases hesc : t.escalation with
      | none => simp [hesc] at h
      | some esc =>
        have hmx : esc.maxSteps = M := by
          have hm := hmax rfl
          simpa [hesc] using hm
        simp only [hesc] at h
        split_ifs at h with h4
        · cases h
          rw [AlertState.get_set_self] at he
          cases he
          simp only [hmx]
          exact ⟨le_min (by omega) (le_of_lt hM), min_le_right _ _⟩
        · cases h; exact hin e he
    · cases h; exact hin e he
  · rw [(processTask_frame h hid).1] at he
    exact hin e he

/-- The loop keeps the level of a task within `[0, M]`, whether or not it
raises. -/
theorem runTasks_levelWithin (now : Clock) (id : String) (M : Int) (hM : 0 < M) :
    ∀ (tasks : List Task) (s : TickState),
      (∀ x ∈ tasks, x.id = id → x.escalation.map Escalation.maxSteps = some M) →
      (∀ e, s.alertState.get id = some e → 0 ≤ e.level ∧ e.level ≤ M) →
      ∀ e, (runTasks now tasks s).1.alertState.get id = some e → 0 ≤ e.level ∧ e.level ≤ M := by
  intro tasks
  induction tasks with
  | nil => intro s _ hin; exact hin
  | cons x rest ih =>
    intro s hmax hin
    unfold runTasks
    cases hx : processTask now s x with
    | none => exact hin
    | some sx =>
      simp only []
      exact ih sx (fun y hy => hmax y (List.mem_cons_of_mem x hy))
        (processTask_levelWithin hx id M hM (hmax x (List.mem_cons_self x rest)) hin)

/-- One run keeps the stored level of a task within `[0, M]` when the task
(if the list has it) carries `maxSteps = M`, whether or not the run raises. -/
theorem tick_levelWithin (now : Clock) (tasks : List Task) (stored : Option AlertState)
    (id : String) (M : Int) (hM : 0 < M)
    (hmax : ∀ x ∈ tasks, x.id = id → x.escalation.map Escalation.maxSteps = some M)
    (hin : levelWithin M id stored) :
    levelWithin M id (persisted stored (checkReminders now tasks stored)) := by
  rcases persisted_cases now tasks stored with hp | hp
  · rw [hp]; exact hin
  · rw [hp]
    exact runTasks_levelWithin now id M hM tasks (initState stored) hmax hin

/-- Every run of a sequence keeps the stored level within `[0, M]`. -/
theorem runTicks_levelWithin (id : String) (M : Int) (hM : 0 < M) :
    ∀ (ticks : List (Clock × List Task)) (stored : Option AlertState),
      (∀ tick ∈ ticks,
        (∀ x ∈ tick.2, x.id = id → x.escalation.map Escalation.maxSteps = some M)) →
      levelWithin M id stored → levelWithin M id (runTicks ticks stored) := by
  intro ticks
  induction ticks with
  | nil => intro stored _ h; exact h
  | cons x rest ih =>
    intro stored hticks hin
    obtain ⟨now, tasks⟩ := x
    have hx := hticks (now, tasks) (List.mem_cons_self _ _)
    simp only [runTicks]
    exact ih _ (fun tick htick => hticks tick (List.mem_cons_of_mem _ htick))
      (tick_levelWithin now tasks stored id M hM hx hin)

/-- A call of `triggerAlert` in a run over a list with distinct ids: it is the
only call for its task, its level is the stored level plus one, capped by
`maxSteps`, and the aggregate the run ends with has the entry of that level
and of the time of the run. -/
theorem tick_call (now : Clock) (tasks : List Task) (stored : Option AlertState)
    (t : Task) (lvl : Int) (hids : (tasks.map Task.id).Nodup)
    (hcall : (t, lvl) ∈ (checkReminders now tasks stored).calls) :
    ∃ esc, t.escalation = some esc ∧
      lvl = min ((lastAlertOf (stored.getD []) t.id).level + 1) esc.maxSteps ∧
      (checkReminders now tasks stored).alertState.get t.id =
        some { level := lvl, lastTime := now.time } ∧
      callsFor t.id (checkReminders now tasks stored).calls = [(t, lvl)] := by
  have ht : t ∈ tasks := by
    rcases runTasks_calls_mem now tasks (initState stored) (t, lvl) hcall with h | h
    · simp [initState] at h
    · exact h
  have hfor : (t, lvl) ∈ callsFor t.id (checkReminders now tasks stored).calls := by
    simp only [callsFor, List.mem_filter, decide_eq_true_eq]
    exact ⟨hcall, trivial⟩
  rcases runTasks_at_any now tasks (initState stored) t hids ht with
    ⟨_, hc⟩ | ⟨s0, s1, hp, hg, hc, hfg, hfc⟩
  · have hnil : callsFor t.id (checkReminders now tasks stored).calls = [] := hc
    rw [hnil] at hfor
    exact absurd hfor (List.not_mem_nil _)
  · have hc0 : callsFor t.id s0.calls = [] := hc
    have hl : lastAlertOf s0.alertState t.id = lastAlertOf (stored.getD []) t.id := by
      unfold lastAlertOf
      rw [hg]
      rfl
    have hfc2 : callsFor t.id (checkReminders now tasks stored).calls = callsFor t.id s1.calls :=
      hfc
    rcases processTask_calls hp with hs | ⟨esc, hesc, hs, hget⟩
    · rw [hfc2, hs, hc0] at hfor
      exact absurd hfor (List.not_mem_nil _)
    · have hcalls : callsFor t.id s1.calls =
          [(t, min ((lastAlertOf (stored.getD []) t.id).level + 1) esc.maxSteps)] := by
        rw [hs, callsFor_append, hc0, hl]
        simp [callsFor]
      rw [hfc2, hcalls] at hfor
      have hlvl : lvl = min ((lastAlertOf (stored.getD []) t.id).level + 1) esc.maxSteps := by
        simp only [List.mem_singleton, Prod.mk.injEq, true_and] at hfor
        exact hfor
      refine ⟨esc, hesc, hlvl, ?_, ?_⟩
      · have hfg2 : (checkReminders now tasks stored).alertState.get t.id =
            s1.alertState.get t.id := hfg
        rw [hfg2, hget, hl, hlvl]
      · rw [hfc2, hcalls, hlvl]

/-- A due task, not completed today, whose escalation test passes, in a list
with distinct ids in which no task before it makes its iteration raise: the
call for it is made. -/
theorem tick_call_made (now : Clock) (before after : List Task) (stored : Option AlertState)
    (t : Task) (esc : Escalation) (hids : ((before ++ t :: after).map Task.id).Nodup)
    (hbefore : ∀ x ∈ before, raises now x = false)
    (hnot : isCompletedToday now t = false)
    (hdue : jsGe (currentTimeStr now) t.dueTime = true)
    (hesc : t.escalation = some esc)
    (hgo : (lastAlertOf (stored.getD []) t.id).level = 0 ∨
      intervalElapsed now.time (lastAlertOf (stored.getD []) t.id).lastTime
        esc.intervalMinutes = true) :
    (t, min ((lastAlertOf (stored.getD []) t.id).level + 1) esc.maxSteps) ∈
      (checkReminders now (before ++ t :: after) stored).calls := by
  have hnotin : t.id ∉ before.map Task.id := by
    intro hmem
    rw [List.map_append, List.nodup_append] at hids
    exact hids.2.2 hmem (by simp)
  have hf := runTasks_frame now t.id before (initState stored) hnotin
  have hl : lastAlertOf (runTasks now before (initState stored)).1.alertState t.id =
      lastAlertOf (stored.getD []) t.id := by
    unfold lastAlertOf
    rw [hf.1]
    rfl
  have hstep : processTask now (runTasks now before (initState stored)).1 t =
      some { alertState := (runTasks now before (initState stored)).1.alertState.set t.id
               { level := min ((lastAlertOf (stored.getD []) t.id).level + 1) esc.maxSteps
                 lastTime := now.time }
             stateChanged := true
             calls := (runTasks now before (initState stored)).1.calls ++
               [(t, min ((lastAlertOf (stored.getD []) t.id).level + 1) esc.maxSteps)] } := by
    unfold processTask
    simp only [hnot, hdue, hesc, hl, if_true, Bool.false_eq_true, if_false]
    rw [if_pos hgo]
  have hrun : runTasks now (before ++ t :: after) (initState stored) =
      runTasks now after
        { alertState := (runTasks now before (initState stored)).1.alertState.set t.id
            { level := min ((lastAlertOf (stored.getD []) t.id).level + 1) esc.maxSteps
              lastTime := now.time }
          stateChanged := true
          calls := (runTasks now before (initState stored)).1.calls ++
            [(t, min ((lastAlertOf (stored.getD []) t.id).level + 1) esc.maxSteps)] } := by
    rw [runTasks_append_of_not_raises now (t :: after) before (initState stored) hbefore]
    conv_lhs => unfold runTasks
    simp only [hstep]
  show _ ∈ (runTasks now (before ++ t :: after) (initState stored)).1.calls
  rw [hrun]
  exact runTasks_calls_subset now after _ _ (by simp)

/-- C4: for a task `id` whose `maxSteps` is a positive `M`, and a sequence of
runs over task lists with distinct ids that starts from a store in which the
level of the task is in `[0, M]` or absent. After every run of the sequence
the stored level is in `[0, M]`. Every escalation, that is every call of
`triggerAlert` for the task in a run, is at the level
`min(previous level + 1, M)`, which lies in `[1, M]`, is the only call for
the task in the run, and goes with the write of
`{ level: min(previous level + 1, M), lastTime: now }` into the aggregate,
which is the stored entry after a run that does not raise; from the level `M`
the call is at level `M` again and the stored level after the run is `M`.
And the escalation takes place: a due task, not completed, whose previous
level is 0 or whose interval has elapsed, gets the call when no task before
it in the list makes the loop raise. -/
theorem level_stays_within_maxSteps (id : String) (M : Int) (hM : 0 < M)
    (ticks : List (Clock × List Task)) (stored : Option AlertState)
    (hticks : ∀ tick ∈ ticks, (tick.2.map Task.id).Nodup ∧
      (∀ x ∈ tick.2, x.id = id → x.escalation.map Escalation.maxSteps = some M))
    (hstart : levelWithin M id stored) :
    (∀ pre post, ticks = pre ++ post → levelWithin M id (runTicks pre stored)) ∧
      (∀ pre now tasks post t lvl, ticks = pre ++ (now, tasks) :: post → t.id = id →
        (t, lvl) ∈ (checkReminders now tasks (runTicks pre stored)).calls →
        lvl = min ((lastAlertOf ((runTicks pre stored).getD []) id).level + 1) M ∧
          1 ≤ lvl ∧ lvl ≤ M ∧
          (checkReminders now tasks (runTicks pre stored)).alertState.get id =
            some { level := lvl, lastTime := now.time } ∧
          callsFor id (checkReminders now tasks (runTicks pre stored)).calls = [(t, lvl)] ∧
          ((checkReminders now tasks (runTicks pre stored)).threw = false →
            ((runTicks (pre ++ [(now, tasks)]) stored).getD []).get id =
              some { level := lvl, lastTime := now.time }) ∧
          ((lastAlertOf ((runTicks pre stored).getD []) id).level = M →
            lvl = M ∧
            ∃ e1, ((runTicks (pre ++ [(now, tasks)]) stored).getD []).get id = some e1 ∧
              e1.level = M)) ∧
      (∀ pre now before t after post esc,
        ticks = pre ++ (now, before ++ t :: after) :: post →
        (∀ x ∈ before, raises now x = false) → t.id = id → t.escalation = some esc →
        isCompletedToday now t = false →
        jsGe (currentTimeStr now) t.dueTime = true →
        ((lastAlertOf ((runTicks pre stored).getD []) id).level = 0 ∨
          intervalElapsed now.time (lastAlertOf ((runTicks pre stored).getD []) id).lastTime
            esc.intervalMinutes = true) →
        (t, min ((lastAlertOf ((runTicks pre stored).getD []) id).level + 1) M) ∈
          (checkReminders now (before ++ t :: after) (runTicks pre stored)).calls) := by
  have hinv : ∀ pre post, ticks = pre ++ post → levelWithin M id (runTicks pre stored) := by
    intro pre post hsplit
    refine runTicks_levelWithin id M hM pre stored (fun tick htick => ?_) hstart
    exact (hticks tick (by rw [hsplit]; exact List.mem_append_left _ htick)).2
  refine ⟨hinv, ?_, ?_⟩
  · intro pre now tasks post t lvl hsplit hid hcall
    have hx := hticks (now, tasks) (by rw [hsplit]; simp)
    have hpre := hinv pre ((now, tasks) :: post) hsplit
    subst hid
    obtain ⟨esc, hesc, hlvl, hget, hcalls⟩ :=
      tick_call now tasks (runTicks pre stored) t lvl hx.1 hcall
    have ht : t ∈ tasks := by
      rcases runTasks_calls_mem now tasks (initState (runTicks pre stored)) (t, lvl) hcall
        with h | h
      · simp [initState] at h
      · exact h
    have hmx : esc.maxSteps = M := by
      have hm := hx.2 t ht rfl
      simpa [hesc] using hm
    rw [hmx] at hlvl
    have hprev : 0 ≤ (lastAlertOf ((runTicks pre stored).getD []) t.id).level ∧
        (lastAlertOf ((runTicks pre stored).getD []) t.id).level ≤ M := by
      unfold lastAlertOf
      cases hg : ((runTicks pre stored).getD []).get t.id with
      | none => exact ⟨le_refl _, le_of_lt hM⟩
      | some e0 => exact hpre e0 hg
    have hrun : runTicks (pre ++ [(now, tasks)]) stored =
        persisted (runTicks pre stored) (checkReminders now tasks (runTicks pre stored)) := by
      rw [runTicks_append]; rfl
    refine ⟨hlvl, ?_, ?_, hget, hcalls, ?_, ?_⟩
    · rw [hlvl]; exact le_min (by omega) (by omega)
    · rw [hlvl]; exact min_le_right _ _
    · intro hthrew
      rw [hrun, persisted_eq now tasks _ hthrew]
      exact hget
    · intro hlev
      have hlM : lvl = M := by
        rw [hlvl, hlev]; exact min_eq_right (by omega)
      refine ⟨hlM, ?_⟩
      rw [hrun]
      rcases persisted_cases now tasks (runTicks pre stored) with hp | hp
      · rw [hp]
        unfold lastAlertOf at hlev
        cases hg : ((runTicks pre stored).getD []).get t.id with
        | none =>
          rw [hg] at hlev
          simp only [Option.getD_none] at hlev
          omega
        | some e0 =>
          rw [hg] at hlev
          exact ⟨e0, rfl, hlev⟩
      · rw [hp]
        exact ⟨_, hget, hlM⟩
  · intro pre now before t after post esc hsplit hbefore hid hesc hnot hdue hgo
    have hx := hticks (now, before ++ t :: after) (by rw [hsplit]; simp)
    have hmx : esc.maxSteps = M := by
      have hm := hx.2 t (by simp) hid
      simpa [hesc] using hm
    subst hid
    have h := tick_call_made now before after (runTicks pre stored) t esc hx.1 hbefore hnot hdue
      hesc hgo
    rw [hmx] at h
    exact h

theorem level_stays_within_maxSteps_witness :
    levelWithin 3 "t1" (runTicks sampleTicks none) ∧
      (sampleTask [], (3 : Int)) ∈
        (checkReminders (sampleClock 20) [sampleTask []]
          (runTicks (sampleTicks.take 4) none)).calls ∧
      (checkReminders (sampleClock 20) [sampleTask []]
          (runTicks (sampleTicks.take 4) none)).alertState.get "t1" =
        some { level := 3, lastTime := (sampleClock 20).time } ∧
      (lastAlertOf ((runTicks (sampleTicks.take 4) none).getD []) "t1").level = 3 :=
  have hticks : ∀ tick ∈ sampleTicks, (tick.2.map Task.id).Nodup ∧
      (∀ x ∈ tick.2, x.id = "t1" → x.escalation.map Escalation.maxSteps = some 3) := by
    decide
  have hstart : levelWithin 3 "t1" none := by
    intro e he; cases he
  ⟨(level_stays_within_maxSteps "t1" 3 (by decide) sampleTicks none hticks hstart).1
      sampleTicks [] (by simp),
    by decide,
    ((level_stays_within_maxSteps "t1" 3 (by decide) sampleTicks none hticks hstart).2.1
      (sampleTicks.take 4) (sampleClock 20) [sampleTask []] [] (sampleTask []) 3
      (by decide) rfl (by decide)).2.2.2.1,
    by decide⟩

/-! ## Scenario A -/

/-- A run over a list of one task that is due and not completed, written
out. -/
theorem tick_single (now : Clock) (t : Task) (esc : Escalation) (stored : Option AlertState)
    (hnot : isCompletedToday now t = false)
    (hdue : jsGe (currentTimeStr now) t.dueTime = true)
    (hesc : t.escalation = some esc) :
    checkReminders now [t] stored =
      if (lastAlertOf (stored.getD []) t.id).level = 0 ∨
          intervalElapsed now.time (lastAlertOf (stored.getD []) t.id).lastTime
            esc.intervalMinutes = true then
        { calls := [(t, min ((lastAlertOf (stored.getD []) t.id).level + 1) esc.maxSteps)]
          alertState := (stored.getD []).set t.id
            { level := min ((lastAlertOf (stored.getD []) t.id).level + 1) esc.maxSteps
              lastTime := now.time }
          saved := some ((stored.getD []).set t.id
            { level := min ((lastAlertOf (stored.getD []) t.id).level + 1) esc.maxSteps
              lastTime := now.time })
          threw := false }
      else
        { calls := [], alertState := stored.getD [], saved := none, threw := false } := by
  by_cases hgo : (lastAlertOf (stored.getD []) t.id).level = 0 ∨
      intervalElapsed now.time (lastAlertOf (stored.getD []) t.id).lastTime
        esc.intervalMinutes = true
  · simp only [checkReminders, runTasks, processTask, initState, hnot, hdue, hesc, if_pos hgo]
    simp
  · simp only [checkReminders, runTasks, processTask, initState, hnot, hdue, hesc, if_neg hgo]
    simp

/-- C5: scenario A. One task, not completed, due at 09:00, with
`intervalMinutes = 5` and `maxSteps = 3`, and an empty store. The runs at
09:00, 09:03, 09:05, 09:11 and 09:20 of the same day, each one reading what the
run before it left in the store, leave the levels 1, 1, 2, 3, 3 and call
`triggerAlert` at the levels 1, (no call), 2, 3, 3. The run at 09:03 changes
nothing and writes nothing. The runs at 09:11 and 09:20 give the notification
the title `"URGENT: " ++ title`. -/
theorem scenario_A (id title day : String) (t0 : Int) (done : List String)
    (hnot : day ∉ done) :
    (checkReminders (scenarioClock t0 day 0) [scenarioTask id title done] none =
        { calls := [(scenarioTask id title done, 1)]
          alertState := [(id, { level := 1, lastTime := t0 })]
          saved := some [(id, { level := 1, lastTime := t0 })]
          threw := false }) ∧
      (checkReminders (scenarioClock t0 day 3) [scenarioTask id title done]
          (some [(id, { level := 1, lastTime := t0 })]) =
        { calls := []
          alertState := [(id, { level := 1, lastTime := t0 })]
          saved := none
          threw := false }) ∧
      (checkReminders (scenarioClock t0 day 5) [scenarioTask id title done]
          (some [(id, { level := 1, lastTime := t0 })]) =
        { calls := [(scenarioTask id title done, 2)]
          alertState := [(id, { level := 2, lastTime := t0 + 300000 })]
          saved := some [(id, { level := 2, lastTime := t0 + 300000 })]
          threw := false }) ∧
      (checkReminders (scenarioClock t0 day 11) [scenarioTask id title done]
          (some [(id, { level := 2, lastTime := t0 + 300000 })]) =
        { calls := [(scenarioTask id title done, 3)]
          alertState := [(id, { level := 3, lastTime := t0 + 660000 })]
          saved := some [(id, { level := 3, lastTime := t0 + 660000 })]
          threw := false }) ∧
      (checkReminders (scenarioClock t0 day 20) [scenarioTask id title done]
          (some [(id, { level := 3, lastTime := t0 + 660000 })]) =
        { calls := [(scenarioTask id title done, 3)]
          alertState := [(id, { level := 3, lastTime := t0 + 1200000 })]
          saved := some [(id, { level := 3, lastTime := t0 + 1200000 })]
          threw := false }) ∧
      runTicks
          [(scenarioClock t0 day 0, [scenarioTask id title done]),
           (scenarioClock t0 day 3, [scenarioTask id title done]),
           (scenarioClock t0 day 5, [scenarioTask id title done]),
           (scenarioClock t0 day 11, [scenarioTask id title done]),
           (scenarioClock t0 day 20, [scenarioTask id title done])] none =
        some [(id, { level := 3, lastTime := t0 + 1200000 })] ∧
      (triggerAlert (scenarioTask id title done) 3).notifyTitle = "URGENT: " ++ title := by
  have hc : ∀ mm, isCompletedToday (scenarioClock t0 day mm) (scenarioTask id title done)
      = false := by
    intro mm; simp [isCompletedToday, today, scenarioClock, scenarioTask, hnot]
  have h1 : checkReminders (scenarioClock t0 day 0) [scenarioTask id title done] none =
      { calls := [(scenarioTask id title done, 1)]
        alertState := [(id, { level := 1, lastTime := t0 })]
        saved := some [(id, { level := 1, lastTime := t0 })]
        threw := false } := by
    rw [tick_single _ _ ⟨5, 3⟩ _ (hc 0)
      (show jsGe (hhmm 9 0) (some "09:00") = true by decide) rfl]
    simp [lastAlertOf, AlertState.get, AlertState.set, scenarioTask, scenarioClock]
  have h2 : checkReminders (scenarioClock t0 day 3) [scenarioTask id title done]
      (some [(id, { level := 1, lastTime := t0 })]) =
      { calls := [], alertState := [(id, { level := 1, lastTime := t0 })]
        saved := none, threw := false } := by
    rw [tick_single _ _ ⟨5, 3⟩ _ (hc 3)
      (show jsGe (hhmm 9 3) (some "09:00") = true by decide) rfl]
    simp [lastAlertOf, AlertState.get, scenarioTask, scenarioClock, intervalElapsed]
  have h3 : checkReminders (scenarioClock t0 day 5) [scenarioTask id title done]
      (some [(id, { level := 1, lastTime := t0 })]) =
      { calls := [(scenarioTask id title done, 2)]
        alertState := [(id, { level := 2, lastTime := t0 + 300000 })]
        saved := some [(id, { level := 2, lastTime := t0 + 300000 })]
        threw := false } := by
    rw [tick_single _ _ ⟨5, 3⟩ _ (hc 5)
      (show jsGe (hhmm 9 5) (some "09:00") = true by decide) rfl]
    simp [lastAlertOf, AlertState.get, AlertState.set, scenarioTask, scenarioClock,
      intervalElapsed]
  have h4 : checkReminders (scenarioClock t0 day 11) [scenarioTask id title done]
      (some [(id, { level := 2, lastTime := t0 + 300000 })]) =
      { calls := [(scenarioTask id title done, 3)]
        alertState := [(id, { level := 3, lastTime := t0 + 660000 })]
        saved := some [(id, { level := 3, lastTime := t0 + 660000 })]
        threw := false } := by
    rw [tick_single _ _ ⟨5, 3⟩ _ (hc 11)
      (show jsGe (hhmm 9 11) (some "09:00") = true by decide) rfl]
    simp [lastAlertOf, AlertState.get, AlertState.set, scenarioTask, scenarioClock,
      intervalElapsed]
  have h5 : checkReminders (scenarioClock t0 day 20) [scenarioTask id title done]
      (some [(id, { level := 3, lastTime := t0 + 660000 })]) =
      { calls := [(scenarioTask id title done, 3)]
        alertState := [(id, { level := 3, lastTime := t0 + 1200000 })]
        saved := some [(id, { level := 3, lastTime := t0 + 1200000 })]
        threw := false } := by
    rw [tick_single _ _ ⟨5, 3⟩ _ (hc 20)
      (show jsGe (hhmm 9 20) (some "09:00") = true by decide) rfl]
    simp [lastAlertOf, AlertState.get, AlertState.set, scenarioTask, scenarioClock,
      intervalElapsed]
  refine ⟨h1, h2, h3, h4, h5, ?_, ?_⟩
  · simp only [runTicks, h1, persisted, h2, h3, h4, h5]
  · simp [triggerAlert, scenarioTask]

theorem scenario_A_witness :
    "2024-03-05" ∉ ["2024-03-04"] ∧
      runTicks
          [(scenarioClock 1709629200000 "2024-03-05" 0,
              [scenarioTask "t1" "Water the plants" ["2024-03-04"]]),
           (scenarioClock 1709629200000 "2024-03-05" 3,
              [scenarioTask "t1" "Water the plants" ["2024-03-04"]]),
           (scenarioClock 1709629200000 "2024-03-05" 5,
              [scenarioTask "t1" "Water the plants" ["2024-03-04"]]),
           (scenarioClock 1709629200000 "2024-03-05" 11,
              [scenarioTask "t1" "Water the plants" ["2024-03-04"]]),
           (scenarioClock 1709629200000 "2024-03-05" 20,
              [scenarioTask "t1" "Water the plants" ["2024-03-04"]])] none =
        some [("t1", { level := 3, lastTime := 1709629200000 + 1200000 })] :=
  ⟨by decide,
    (scenario_A "t1" "Water the plants" "2024-03-05" 1709629200000 ["2024-03-04"]
      (by decide)).2.2.2.2.2.1⟩

/-! ## The due test -/

theorem digit_toNat (k : Nat) (hk : k < 10) : (Char.ofNat (48 + k)).toNat = 48 + k := by
  interval_cases k <;> rfl

theorem pad2_data (n : Nat) (hn : n < 60) :
    (padStart (toString n) 2 '0').data =
      [Char.ofNat (48 + n / 10), Char.ofNat (48 + n % 10)] := by
  interval_cases n <;> decide

theorem hhmm_data (h m : Nat) (hh : h < 24) (hm : m < 60) :
    (hhmm h m).data = [Char.ofNat (48 + h / 10), Char.ofNat (48 + h % 10), ':',
      Char.ofNat (48 + m / 10), Char.ofNat (48 + m % 10)] := by
  unfold hhmm
  simp only [String.data_append, pad2_data h (by omega), pad2_data m hm]
  rfl

/-- On two well-formed `HH:MM` strings the string order is the order of the
minutes since midnight. -/
theorem jsStrLt_hhmm (h m H M : Nat) (hh : h < 24) (hm : m < 60) (hH : H < 24)
    (hM : M < 60) :
    jsStrLt (hhmm h m).data (hhmm H M).data = true ↔ 60 * h + m < 60 * H + M := by
  rw [hhmm_data h m hh hm, hhmm_data H M hH hM]
  simp only [jsStrLt, digit_toNat (h / 10) (by omega), digit_toNat (h % 10) (by omega),
    digit_toNat (m / 10) (by omega), digit_toNat (m % 10) (by omega),
    digit_toNat (H / 10) (by omega), digit_toNat (H % 10) (by omega),
    digit_toNat (M / 10) (by omega), digit_toNat (M % 10) (by omega)]
  split_ifs <;> simp <;> omega

/-- C6, as the code has it: for a clock with local hour in 0..23 and minute in
0..59 and a task whose `dueTime` is the well-formed string `HH:MM`, in any
task list with distinct ids, the due test `currentTimeStr >= dueTime` is true
exactly when `60 * h + m >= 60 * HH + MM`; and when the time of day is
earlier than `dueTime` and the task is not completed today, the run leaves
the entry of the task unchanged, in the aggregate and in the store, and calls
`triggerAlert` for it not at all. -/
theorem due_test_is_time_order (now : Clock) (tasks : List Task)
    (stored : Option AlertState) (t : Task) (H M : Nat)
    (hh : now.hours < 24) (hm : now.minutes < 60) (hH : H < 24) (hM : M < 60)
    (hdueTime : t.dueTime = some (hhmm H M))
    (hids : (tasks.map Task.id).Nodup)
    (ht : t ∈ tasks) :
    (jsGe (currentTimeStr now) t.dueTime = true ↔
        60 * H + M ≤ 60 * now.hours + now.minutes) ∧
      (today now ∉ t.completedInstances → 60 * now.hours + now.minutes < 60 * H + M →
        (checkReminders now tasks stored).alertState.get t.id = (stored.getD []).get t.id ∧
        ((persisted stored (checkReminders now tasks stored)).getD []).get t.id =
          (stored.getD []).get t.id ∧
        callsFor t.id (checkReminders now tasks stored).calls = []) := by
  have hiff : jsGe (currentTimeStr now) t.dueTime = true ↔
      60 * H + M ≤ 60 * now.hours + now.minutes := by
    have hlt := jsStrLt_hhmm now.hours now.minutes H M hh hm hH hM
    rw [hdueTime]
    simp only [jsGe, currentTimeStr, Bool.not_eq_true', ← Bool.not_eq_true, hlt]
    omega
  refine ⟨hiff, fun hnot hearly => ?_⟩
  have hc : isCompletedToday now t = false := by
    simp [isCompletedToday, hnot]
  have hd : jsGe (currentTimeStr now) t.dueTime = false := by
    cases hj : jsGe (currentTimeStr now) t.dueTime with
    | false => rfl
    | true => have := hiff.mp hj; omega
  exact tick_not_due_any now tasks stored t hids ht hc hd

theorem due_test_is_time_order_witness :
    (jsGe (currentTimeStr (sampleClock 11))
        { sampleLateTask with completedInstances := [] }.dueTime = true ↔
        60 * 10 + 0 ≤ 60 * (sampleClock 11).hours + (sampleClock 11).minutes) ∧
      (checkReminders (sampleClock 11)
          [{ sampleLateTask with completedInstances := [] }, sampleNoPolicyTask]
          (some [("t1", { level := 2, lastTime := 1709542800000 })])).alertState.get "t1" =
        some { level := 2, lastTime := 1709542800000 } :=
  ⟨(due_test_is_time_order (sampleClock 11)
      [{ sampleLateTask with completedInstances := [] }, sampleNoPolicyTask]
      (some [("t1", { level := 2, lastTime := 1709542800000 })])
      { sampleLateTask with completedInstances := [] } 10 0
      (by decide) (by decide) (by decide) (by decide) (by decide) (by decide)
      (by decide)).1,
    ((due_test_is_time_order (sampleClock 11)
      [{ sampleLateTask with completedInstances := [] }, sampleNoPolicyTask]
      (some [("t1", { level := 2, lastTime := 1709542800000 })])
      { sampleLateTask with completedInstances := [] } 10 0
      (by decide) (by decide) (by decide) (by decide) (by decide) (by decide)
      (by decide)).2 (by decide) (by decide)).1⟩

/-- C6, the claim as stated fails: at 09:11 a task due at 10:00 (a well-formed
`dueTime`, later than the time of day) that is completed today and has an
entry of level 2 loses its entry in the run, which writes the emptied
aggregate. -/
theorem early_completed_task_entry_deleted :
    sampleLateTask.dueTime = some (hhmm 10 0) ∧
      60 * (sampleClock 11).hours + (sampleClock 11).minutes < 60 * 10 + 0 ∧
      jsGe (currentTimeStr (sampleClock 11)) sampleLateTask.dueTime = false ∧
      AlertState.get [("t1", { level := 2, lastTime := 1709542800000 })] sampleLateTask.id =
        some { level := 2, lastTime := 1709542800000 } ∧
      (checkReminders (sampleClock 11) [sampleLateTask]
          (some [("t1", { level := 2, lastTime := 1709542800000 })])).alertState.get
            sampleLateTask.id = none ∧
      (checkReminders (sampleClock 11) [sampleLateTask]
          (some [("t1", { level := 2, lastTime := 1709542800000 })])).saved = some [] := by
  decide

/-! ## Claims about `Scheduler.triggerAlert` -/

theorem reminder_ne_urgent (title : String) :
    "Reminder: " ++ title ≠ "Urgent! " ++ title ++ " is overdue. Complete it immediately!" := by
  intro h
  have h2 := congrArg String.data h
  simp only [String.data_append] at h2
  have h3 := congrArg List.head? h2
  simp at h3

theorem attention_ne_urgent (title : String) :
    "Attention: You have not completed " ++ title ++ ". Please do it now." ≠
      "Urgent! " ++ title ++ " is overdue. Complete it immediately!" := by
  intro h
  have h2 := congrArg String.data h
  simp only [String.data_append] at h2
  have h3 := congrArg List.head? h2
  simp at h3

theorem title_ne_urgent (title : String) : title ≠ "URGENT: " ++ title := by
  intro h
  have h2 := congrArg String.length h
  simp only [String.length_append] at h2
  have h3 : "URGENT: ".length = 8 := by decide
  omega

/-- C7, as the code has it: for every task, `triggerAlert` at level 2 hands
over, as notification body and as spoken text, the message
`"Attention: You have not completed {title}. Please do it now."` (with a
capital `Y`), and the task title without a mark in front as the notification
title. -/
theorem level_two_message (task : Task) :
    (triggerAlert task 2).notifyBody =
        "Attention: You have not completed " ++ task.title ++ ". Please do it now." ∧
      (triggerAlert task 2).speakText =
        "Attention: You have not completed " ++ task.title ++ ". Please do it now." ∧
      (triggerAlert task 2).notifyTitle = task.title := by
  simp [triggerAlert, alertMessage]

/-- C7, the claim as stated fails: for the sample task the message of level 2
is not the one with a small `y` that the claim quotes, neither as body nor as
spoken text. -/
theorem level_two_message_not_lowercase :
    (triggerAlert (sampleTask []) 2).notifyBody ≠
        "Attention: you have not completed Water the plants. Please do it now." ∧
      (triggerAlert (sampleTask []) 2).speakText ≠
        "Attention: you have not completed Water the plants. Please do it now." ∧
      (triggerAlert (sampleTask []) 2).notifyBody =
        "Attention: You have not completed Water the plants. Please do it now." := by
  decide

/-- C8: for every task and every integer level, `triggerAlert` gives the
notification the title `"URGENT: " ++ title` exactly when `level >= 3`, and
the message `"Urgent! {title} is overdue. Complete it immediately!"` (as body
and as spoken text) exactly when `level >= 3`; at level 1 the title is the
task title alone and the message is `"Reminder: {title}"`; at every level the
tag is the id of the task. -/
theorem alert_content_by_level (task : Task) (level : Int) :
    ((triggerAlert task level).notifyTitle = "URGENT: " ++ task.title ↔ 3 ≤ level) ∧
      ((triggerAlert task level).notifyBody =
          "Urgent! " ++ task.title ++ " is overdue. Complete it immediately!" ↔ 3 ≤ level) ∧
      ((triggerAlert task level).speakText =
          "Urgent! " ++ task.title ++ " is overdue. Complete it immediately!" ↔ 3 ≤ level) ∧
      (triggerAlert task 1).notifyTitle = task.title ∧
      (triggerAlert task 1).notifyBody = "Reminder: " ++ task.title ∧
      (triggerAlert task 1).speakText = "Reminder: " ++ task.title ∧
      (triggerAlert task level).notifyTag = task.id := by
  have hbody : alertMessage task.title level =
      "Urgent! " ++ task.title ++ " is overdue. Complete it immediately!" ↔ 3 ≤ level := by
    unfold alertMessage
    by_cases h2 : level = 2
    · rw [if_pos h2]
      constructor
      · intro h; exact absurd h (attention_ne_urgent task.title)
      · intro h; omega
    · rw [if_neg h2]
      by_cases h3 : 3 ≤ level
      · rw [if_pos h3]; exact ⟨fun _ => h3, fun _ => rfl⟩
      · rw [if_neg h3]
        constructor
        · intro h; exact absurd h (reminder_ne_urgent task.title)
        · intro h; exact absurd h h3
  refine ⟨?_, hbody, hbody, ?_, ?_, ?_, rfl⟩
  · show (if 3 ≤ level then "URGENT: " ++ task.title else task.title) =
      "URGENT: " ++ task.title ↔ 3 ≤ level
    by_cases h3 : 3 ≤ level
    · rw [if_pos h3]; exact ⟨fun _ => h3, fun _ => rfl⟩
    · rw [if_neg h3]
      constructor
      · intro h; exact absurd h (title_ne_urgent task.title)
      · intro h; exact absurd h h3
  · simp [triggerAlert]
  · simp [triggerAlert, alertMessage]
  · simp [triggerAlert, alertMessage]

/-! ## Writes of the aggregate -/

/-- An iteration raises the flag exactly when it deletes or sets an entry. -/
theorem processTask_changed {now : Clock} {s s1 : TickState} {t : Task}
    (h : processTask now s t = some s1) :
    s1.stateChanged = true ↔
      s.stateChanged = true ∨ deletesEntry now s t = true ∨ setsEntry now s t = true := by
  unfold processTask at h
  unfold deletesEntry setsEntry
  cases hc : isCompletedToday now t <;> cases hd : jsGe (currentTimeStr now) t.dueTime <;>
    cases he : t.escalation <;> simp only [hc, hd, he] at h ⊢ <;>
    split_ifs at h <;> cases h <;> simp_all

/-- The loop ends with the flag raised exactly when it was raised before or
some iteration deleted or set an entry. -/
theorem runTasks_changed (now : Clock) :
    ∀ (tasks : List Task) (s : TickState), (∀ x ∈ tasks, raises now x = false) →
      ((runTasks now tasks s).1.stateChanged = true ↔
        s.stateChanged = true ∨ ∃ pre t post, tasks = pre ++ t :: post ∧
          (deletesEntry now (runTasks now pre s).1 t = true ∨
            setsEntry now (runTasks now pre s).1 t = true)) := by
  intro tasks
  induction tasks with
  | nil =>
    intro s _
    simp [runTasks]
  | cons x rest ih =>
    intro s hraise
    obtain ⟨sx, hx⟩ := processTask_ne_none now s (hraise x (List.mem_cons_self x rest))
    have hrun : ∀ l, runTasks now (x :: l) s = runTasks now l sx := by
      intro l
      conv_lhs => unfold runTasks
      simp only [hx]
    rw [hrun, ih sx (fun y hy => hraise y (List.mem_cons_of_mem x hy)), processTask_changed hx]
    constructor
    · rintro ((h | h) | ⟨pre, t, post, hsplit, hev⟩)
      · exact Or.inl h
      · exact Or.inr ⟨[], x, rest, rfl, h⟩
      · refine Or.inr ⟨x :: pre, t, post, by rw [hsplit]; rfl, ?_⟩
        rw [hrun]; exact hev
    · rintro (h | ⟨pre, t, post, hsplit, hev⟩)
      · exact Or.inl (Or.inl h)
      · cases pre with
        | nil =>
          simp only [List.nil_append, List.cons.injEq] at hsplit
          obtain ⟨rfl, rfl⟩ := hsplit
          exact Or.inl (Or.inr hev)
        | cons y pre2 =>
          simp only [List.cons_append, List.cons.injEq] at hsplit
          obtain ⟨rfl, rfl⟩ := hsplit
          rw [hrun] at hev
          exact Or.inr ⟨pre2, t, post, rfl, hev⟩

/-- One run of `checkReminders` makes at most one write
`saveState('alertState', ...)` (the field `saved` holds it). On a task list on
which the loop does not raise, it makes the write exactly when some iteration
of the run deleted an entry (a completed task with an entry) or set one (an
escalation); the value written is the aggregate as it is after all tasks were
processed; and a run in which no iteration deletes or sets an entry writes
nothing, calls `triggerAlert` not at all and leaves the aggregate as it was
read. -/
theorem write_iff_entry_touched (now : Clock) (tasks : List Task)
    (stored : Option AlertState) (hraise : ∀ x ∈ tasks, raises now x = false) :
    ((checkReminders now tasks stored).saved.isSome = true ↔ entryTouched now tasks stored) ∧
      (∀ a, (checkReminders now tasks stored).saved = some a →
        a = (checkReminders now tasks stored).alertState) ∧
      (¬ entryTouched now tasks stored →
        (checkReminders now tasks stored).saved = none ∧
        (checkReminders now tasks stored).calls = [] ∧
        dispatches (checkReminders now tasks stored) = [] ∧
        (checkReminders now tasks stored).alertState = stored.getD []) := by
  have hthrew : (runTasks now tasks (initState stored)).2 = false :=
    runTasks_not_threw now tasks (initState stored) hraise
  have hchg := runTasks_changed now tasks (initState stored) hraise
  have hinit : (initState stored).stateChanged = true ↔ False := by simp [initState]
  rw [hinit, false_or] at hchg
  have hsaved : (checkReminders now tasks stored).saved.isSome = true ↔
      (runTasks now tasks (initState stored)).1.stateChanged = true := by
    simp only [checkReminders, hthrew, true_and]
    split_ifs with h <;> simp [h]
  refine ⟨hsaved.trans hchg, ?_, ?_⟩
  · intro a ha
    simp only [checkReminders, hthrew, true_and] at ha ⊢
    split_ifs at ha
    cases ha; rfl
  · intro hno
    have hflag : (runTasks now tasks (initState stored)).1.stateChanged = false := by
      cases hf : (runTasks now tasks (initState stored)).1.stateChanged with
      | false => rfl
      | true => exact absurd (hchg.mp hf) hno
    have hsame := (runTasks_flag now tasks (initState stored)).2 hflag
    refine ⟨?_, ?_, ?_, ?_⟩
    · simp [checkReminders, hflag]
    · show (runTasks now tasks (initState stored)).1.calls = []
      rw [hsame]; rfl
    · show List.map _ (runTasks now tasks (initState stored)).1.calls = []
      rw [hsame]; rfl
    · show (runTasks now tasks (initState stored)).1.alertState = _
      rw [hsame]; rfl

theorem write_iff_entry_touched_witness :
    (checkReminders (sampleClock 3) [sampleTask []]
        (some [("t1", { level := 1, lastTime := 1709629200000 })])).saved = none ∧
      ((checkReminders (sampleClock 5) [sampleTask []]
        (some [("t1", { level := 1, lastTime := 1709629200000 })])).saved.isSome = true ↔
        entryTouched (sampleClock 5) [sampleTask []]
          (some [("t1", { level := 1, lastTime := 1709629200000 })])) :=
  ⟨by decide,
    (write_iff_entry_touched (sampleClock 5) [sampleTask []]
      (some [("t1", { level := 1, lastTime := 1709629200000 })]) (by decide)).1⟩


/-! ## Claims about `TaskManager.toggleComplete` -/

theorem putTask_find (task : Task) :
    ∀ l : List Task, (putTask task l).find? (fun x => x.id == task.id) = some task := by
  intro l
  induction l with
  | nil => simp [putTask]
  | cons x rest ih =>
    by_cases h : x.id = task.id
    · simp [putTask, h]
    · simp [putTask, h, ih]

theorem putTask_filter (task : Task) :
    ∀ l : List Task, (putTask task l).filter (fun x => x.id != task.id) =
      l.filter (fun x => x.id != task.id) := by
  intro l
  induction l with
  | nil => simp [putTask]
  | cons x rest ih =>
    by_cases h : x.id = task.id
    · simp [putTask, h]
    · simp [putTask, h, ih]

/-- C10: for every task list and every id of a task in it,
`toggleComplete(id)` flips the membership of today's date in the
`completedInstances` of that task (the first with this id) and leaves the
membership of every other date as it was, as well as the id, title, due time
and policy; the tasks with another id are the same records in the same order;
the alert-state aggregate is not written (it is what it was) and not read
(the task list that results does not depend on it); and for an id that
matches no task nothing changes. -/
theorem toggleComplete_flips_today (now : Clock) (id : String) (db : Database) :
    (id ∈ db.tasks.map Task.id →
      ∃ t t1, db.tasks.find? (fun x => x.id == id) = some t ∧
        (toggleComplete now id db).tasks.find? (fun x => x.id == id) = some t1 ∧
        (today now ∈ t1.completedInstances ↔ today now ∉ t.completedInstances) ∧
        (∀ d, d ≠ today now → (d ∈ t1.completedInstances ↔ d ∈ t.completedInstances)) ∧
        t1.id = t.id ∧ t1.title = t.title ∧ t1.dueTime = t.dueTime ∧
        t1.escalation = t.escalation) ∧
      (toggleComplete now id db).tasks.filter (fun x => x.id != id) =
        db.tasks.filter (fun x => x.id != id) ∧
      (toggleComplete now id db).alertState = db.alertState ∧
      (∀ a, (toggleComplete now id { db with alertState := a }).tasks =
        (toggleComplete now id db).tasks) ∧
      (id ∉ db.tasks.map Task.id → toggleComplete now id db = db) := by
  cases hf : db.tasks.find? (fun x => x.id == id) with
  | none =>
    have hnone : id ∉ db.tasks.map Task.id := by
      intro hmem
      obtain ⟨x, hx, hid⟩ := List.mem_map.mp hmem
      have := List.find?_eq_none.mp hf x hx
      simp [hid] at this
    refine ⟨fun h => absurd h hnone, ?_, ?_, ?_, ?_⟩
    · simp [toggleComplete, hf]
    · simp [toggleComplete, hf]
    · intro a; simp [toggleComplete, hf]
    · intro _; simp [toggleComplete, hf]
  | some t =>
    have hid : t.id = id := by
      have := List.find?_some hf
      simpa using this
    have hmem : id ∈ db.tasks.map Task.id :=
      List.mem_map.mpr ⟨t, List.mem_of_find?_eq_some hf, hid⟩
    subst hid
    by_cases hc : t.completedInstances.contains (today now) = true
    · have hin : today now ∈ t.completedInstances := by simpa using hc
      refine ⟨fun _ => ⟨t, { t with
          completedInstances := t.completedInstances.filter (fun d => d != today now)
          updatedAt := now.isoDate ++ "T" ++ now.isoTime }, rfl, ?_, ?_⟩, ?_, ?_, ?_,
        fun h => absurd hmem h⟩
      · simp only [toggleComplete, hf, hc, if_true, updateTask, saveTask]
        exact putTask_find { t with
          completedInstances := t.completedInstances.filter (fun d => d != today now)
          updatedAt := now.isoDate ++ "T" ++ now.isoTime } db.tasks
      · refine ⟨?_, ?_, rfl, rfl, rfl, rfl⟩
        · simp [hin]
        · intro d hd; simp [hd]
      · simp only [toggleComplete, hf, hc, if_true, updateTask, saveTask]
        exact putTask_filter { t with
          completedInstances := t.completedInstances.filter (fun d => d != today now)
          updatedAt := now.isoDate ++ "T" ++ now.isoTime } db.tasks
      · simp [toggleComplete, hf, hin, updateTask, saveTask]
      · intro a; simp [toggleComplete, hf, hin, updateTask, saveTask]
    · have hin : today now ∉ t.completedInstances := by simpa using hc
      refine ⟨fun _ => ⟨t, { t with
          completedInstances := t.completedInstances ++ [today now]
          updatedAt := now.isoDate ++ "T" ++ now.isoTime }, rfl, ?_, ?_⟩, ?_, ?_, ?_,
        fun h => absurd hmem h⟩
      · simp only [toggleComplete, hf, hc, if_false, updateTask, saveTask]
        exact putTask_find { t with
          completedInstances := t.completedInstances ++ [today now]
          updatedAt := now.isoDate ++ "T" ++ now.isoTime } db.tasks
      · refine ⟨?_, ?_, rfl, rfl, rfl, rfl⟩
        · simp [hin]
        · intro d hd; simp [hd]
      · simp only [toggleComplete, hf, hc, if_false, updateTask, saveTask]
        exact putTask_filter { t with
          completedInstances := t.completedInstances ++ [today now]
          updatedAt := now.isoDate ++ "T" ++ now.isoTime } db.tasks
      · simp [toggleComplete, hf, hin, updateTask, saveTask]
      · intro a; simp [toggleComplete, hf, hin, updateTask, saveTask]

theorem toggleComplete_flips_today_witness :
    "t1" ∈ (Database.mk [sampleTask ["2024-03-04"]] none).tasks.map Task.id ∧
      (toggleComplete (sampleClock 6) "t1" (Database.mk [sampleTask ["2024-03-04"]] none)).tasks
          = [{ sampleTask ["2024-03-04", "2024-03-05"] with
                updatedAt := "2024-03-05T09:00:00.000Z" }] ∧
      (toggleComplete (sampleClock 6) "t1"
          (Database.mk [sampleTask ["2024-03-04"]] none)).alertState = none :=
  ⟨by decide, by decide,
    (toggleComplete_flips_today (sampleClock 6) "t1"
      (Database.mk [sampleTask ["2024-03-04"]] none)).2.2.1⟩

/-! ## Malformed task records -/

/-- The loop over a list with such a task in it is the loop over the list
without it. -/
theorem runTasks_skip (now : Clock) (t : Task) (post : List Task)
    (hnot : isCompletedToday now t = false)
    (hdue : jsGe (currentTimeStr now) t.dueTime = false) :
    ∀ (pre : List Task) (s : TickState),
      runTasks now (pre ++ t :: post) s = runTasks now (pre ++ post) s := by
  intro pre
  induction pre with
  | nil =>
    intro s
    simp only [List.nil_append]
    conv_lhs => unfold runTasks
    simp only [processTask_skip now s t hnot hdue]
  | cons x rest ih =>
    intro s
    simp only [List.cons_append]
    unfold runTasks
    cases processTask now s x with
    | none => rfl
    | some sx => exact ih sx

/-- A run over a list with a task without `dueTime`, not completed today, is
the run over the list without it. -/
theorem checkReminders_skip_missing_dueTime (now : Clock) (t : Task) (pre post : List Task)
    (stored : Option AlertState) (hnot : isCompletedToday now t = false)
    (hdue : t.dueTime = none) :
    checkReminders now (pre ++ t :: post) stored = checkReminders now (pre ++ post) stored := by
  have hj : jsGe (currentTimeStr now) t.dueTime = false := by rw [hdue]; rfl
  simp only [checkReminders, runTasks_skip now t post hnot hj pre (initState stored)]

/-- C11, where the code departs from the claim: at 09:11 a task without
`escalation`, due at 08:00 and not completed, makes the run raise. With the
task first in the list the sample task after it gets no alert and nothing is
written; with the task last the sample task is alerted but its entry is not
written. Without the task the run alerts the sample task at level 1 and
writes its entry. A task without `dueTime` in the same place is skipped. -/
theorem missing_escalation_aborts_run :
    ((checkReminders (sampleClock 11) [sampleNoPolicyTask, sampleTask []] none).threw = true ∧
        (checkReminders (sampleClock 11) [sampleNoPolicyTask, sampleTask []] none).calls = [] ∧
        (checkReminders (sampleClock 11) [sampleNoPolicyTask, sampleTask []] none).saved = none) ∧
      ((checkReminders (sampleClock 11) [sampleTask [], sampleNoPolicyTask] none).threw = true ∧
        (checkReminders (sampleClock 11) [sampleTask [], sampleNoPolicyTask] none).calls =
          [(sampleTask [], 1)] ∧
        (checkReminders (sampleClock 11) [sampleTask [], sampleNoPolicyTask] none).saved = none) ∧
      ((checkReminders (sampleClock 11) [sampleTask []] none).threw = false ∧
        (checkReminders (sampleClock 11) [sampleTask []] none).calls = [(sampleTask [], 1)] ∧
        (checkReminders (sampleClock 11) [sampleTask []] none).saved =
          some [("t1", { level := 1, lastTime := 1709629860000 })]) ∧
      checkReminders (sampleClock 11) [sampleNoDueTask, sampleTask []] none =
        checkReminders (sampleClock 11) [sampleTask []] none := by
  decide


/-! ## The scheduled scan -/

theorem KvStore.get_after_del (db : KvStore) (key : String) : (db.del key).get key = none := by
  induction db with
  | nil => rfl
  | cons p rest ih =>
    obtain ⟨k, v⟩ := p
    by_cases h : k = key
    · simp [KvStore.del, h, ih]
    · simp [KvStore.del, KvStore.get, h, ih]

theorem KvStore.get_after_del_of_ne (db : KvStore) {key other : String} (h : key ≠ other) :
    (db.del key).get other = db.get other := by
  induction db with
  | nil => rfl
  | cons p rest ih =>
    obtain ⟨k, v⟩ := p
    by_cases hk : k = key
    · have hko : k ≠ other := by rw [hk]; exact h
      simp [KvStore.del, KvStore.get, hk, ih, h]
    · by_cases ho : k = other
      · subst ho
        simp [KvStore.del, KvStore.get, hk]
      · simp [KvStore.del, KvStore.get, hk, ho, ih]

theorem attemptsFor_append (key : String) (xs ys : List (String × Subscription × PushPayload)) :
    attemptsFor key (xs ++ ys) = attemptsFor key xs ++ attemptsFor key ys := by
  simp [attemptsFor]

theorem delivered_append (send : String → Subscription → PushPayload → SendOutcome)
    (xs ys : List (String × Subscription × PushPayload)) :
    delivered send (xs ++ ys) = delivered send xs ++ delivered send ys := by
  simp [delivered]

/-- An iteration for one key leaves the record and the sends of every other
key as they were. -/
theorem cronStep_frame (send : String → Subscription → PushPayload → SendOutcome)
    (cur : String) (s : CronState) {key other : String} (h : key ≠ other) :
    (cronStep send cur s key).db.get other = s.db.get other ∧
      attemptsFor other (cronStep send cur s key).attempts = attemptsFor other s.attempts := by
  unfold cronStep
  split
  · exact ⟨rfl, rfl⟩
  · split
    · split_ifs with hd
      · split
        · refine ⟨rfl, ?_⟩
          simp [attemptsFor_append, attemptsFor, h]
        · split_ifs with hc
          · refine ⟨KvStore.get_after_del_of_ne _ h, ?_⟩
            simp [attemptsFor_append, attemptsFor, h]
          · refine ⟨rfl, ?_⟩
            simp [attemptsFor_append, attemptsFor, h]
      · exact ⟨rfl, rfl⟩
    · exact ⟨rfl, rfl⟩

/-- The counter is the number of sends that returned. -/
theorem cronStep_count (send : String → Subscription → PushPayload → SendOutcome)
    (cur : String) (s : CronState) (key : String)
    (h : s.notificationsSent = (delivered send s.attempts).length) :
    (cronStep send cur s key).notificationsSent =
      (delivered send (cronStep send cur s key).attempts).length := by
  unfold cronStep
  split
  · exact h
  · split
    · split_ifs with hd
      · split
        · rename_i hsend
          simp [delivered_append, h]
          simp [delivered, hsend]
        · rename_i code hsend
          split_ifs with hc
          · simp [delivered_append, h]
            simp [delivered, hsend]
          · simp [delivered_append, h]
            simp [delivered, hsend]
      · exact h
    · exact h

/-- The iteration for the key of a record that has a task list and a
subscription, written out. -/
theorem cronStep_user (send : String → Subscription → PushPayload → SendOutcome)
    (cur : String) (s : CronState) (key : String) (ud : UserData) (tasks : List ServerTask)
    (sub : Subscription) (hg : s.db.get key = some ud) (ht : ud.tasks = some tasks)
    (hs : ud.subscription = some sub) :
    attemptsFor key (cronStep send cur s key).attempts =
        attemptsFor key s.attempts ++
          (if dueTasks cur tasks = [] then []
           else [(key, sub, reminderPayload (dueTasks cur tasks))]) ∧
      ((cronStep send cur s key).db.get key = none ↔
        dueTasks cur tasks ≠ [] ∧
          send key sub (reminderPayload (dueTasks cur tasks)) =
            SendOutcome.rejected (some 410)) ∧
      ((cronStep send cur s key).db.get key ≠ none →
        (cronStep send cur s key).db.get key = some ud) := by
  have hlen : 0 < (dueTasks cur tasks).length ↔ dueTasks cur tasks ≠ [] :=
    List.length_pos
  simp only [cronStep, hg, ht, hs]
  by_cases hd : dueTasks cur tasks = []
  · have hl : ¬ 0 < (dueTasks cur tasks).length := by rw [hlen]; exact fun h => h hd
    simp only [if_neg hl, if_pos hd, List.append_nil]
    simp [hg, hd]
  · have hl : 0 < (dueTasks cur tasks).length := hlen.mpr hd
    simp only [if_pos hl, if_neg hd]
    cases hsend : send key sub (reminderPayload (dueTasks cur tasks)) with
    | delivered =>
      simp only []
      simp [attemptsFor_append, attemptsFor, hg]
    | rejected code =>
      simp only []
      by_cases hc : code = some 410
      · simp only [if_pos hc]
        simp [attemptsFor_append, attemptsFor, KvStore.get_after_del, hd, hc]
      · simp only [if_neg hc]
        simp [attemptsFor_append, attemptsFor, hg, hc]

theorem KvStore.get_of_mem (db : KvStore) (key : String) (ud : UserData)
    (hkeys : (db.map Prod.fst).Nodup) (hmem : (key, ud) ∈ db) : db.get key = some ud := by
  induction db with
  | nil => exact absurd hmem (List.not_mem_nil _)
  | cons p rest ih =>
    obtain ⟨k, v⟩ := p
    simp only [List.map_cons, List.nodup_cons] at hkeys
    rcases List.mem_cons.mp hmem with heq | hrest
    · cases heq
      simp [KvStore.get]
    · have hne : k ≠ key := by
        intro h
        exact hkeys.1 (h ▸ List.mem_map_of_mem Prod.fst hrest)
      simp [KvStore.get, hne, ih hkeys.2 hrest]

theorem cronLoop_frame (send : String → Subscription → PushPayload → SendOutcome)
    (cur : String) (key : String) :
    ∀ (keys : List String) (s : CronState), key ∉ keys →
      (cronLoop send cur keys s).db.get key = s.db.get key ∧
      attemptsFor key (cronLoop send cur keys s).attempts = attemptsFor key s.attempts := by
  intro keys
  induction keys with
  | nil => intro s _; exact ⟨rfl, rfl⟩
  | cons k rest ih =>
    intro s hk
    simp only [List.mem_cons, not_or] at hk
    have hne : k ≠ key := fun h => hk.1 h.symm
    have hf := cronStep_frame send cur s hne
    have hr := ih (cronStep send cur s k) hk.2
    exact ⟨hr.1.trans hf.1, hr.2.trans hf.2⟩

theorem cronLoop_count (send : String → Subscription → PushPayload → SendOutcome)
    (cur : String) :
    ∀ (keys : List String) (s : CronState),
      s.notificationsSent = (delivered send s.attempts).length →
      (cronLoop send cur keys s).notificationsSent =
        (delivered send (cronLoop send cur keys s).attempts).length := by
  intro keys
  induction keys with
  | nil => intro s h; exact h
  | cons k rest ih =>
    intro s h
    exact ih (cronStep send cur s k) (cronStep_count send cur s k h)

/-- The iteration that the loop makes for one of its keys: it starts from
locals that agree with the first ones on this key, and what it leaves for the
key is what the loop leaves. -/
theorem cronLoop_at (send : String → Subscription → PushPayload → SendOutcome)
    (cur : String) (key : String) :
    ∀ (keys : List String) (s : CronState), keys.Nodup → key ∈ keys →
      ∃ s0, s0.db.get key = s.db.get key ∧
        attemptsFor key s0.attempts = attemptsFor key s.attempts ∧
        (cronLoop send cur keys s).db.get key = (cronStep send cur s0 key).db.get key ∧
        attemptsFor key (cronLoop send cur keys s).attempts =
          attemptsFor key (cronStep send cur s0 key).attempts := by
  intro keys
  induction keys with
  | nil => intro s _ h; exact absurd h (List.not_mem_nil _)
  | cons k rest ih =>
    intro s hnd hmem
    simp only [List.nodup_cons] at hnd
    rcases List.mem_cons.mp hmem with rfl | hrest
    · have hf := cronLoop_frame send cur key rest (cronStep send cur s key) hnd.1
      exact ⟨s, rfl, rfl, hf.1, hf.2⟩
    · have hne : k ≠ key := fun h => hnd.1 (h ▸ hrest)
      obtain ⟨s0, hg, ha, hfg, hfa⟩ := ih (cronStep send cur s k) hnd.2 hrest
      have hf := cronStep_frame send cur s hne
      exact ⟨s0, hg.trans hf.1, ha.trans hf.2, hfg, hfa⟩

theorem userKeys_nodup (store : KvStore) (hkeys : (store.map Prod.fst).Nodup) :
    store.userKeys.Nodup :=
  List.Nodup.filter _ hkeys

theorem mem_userKeys (store : KvStore) (key : String) (ud : UserData)
    (hmem : (key, ud) ∈ store) (huser : isUserKey key = true) : key ∈ store.userKeys := by
  unfold KvStore.userKeys
  exact List.mem_filter.mpr ⟨List.mem_map_of_mem Prod.fst hmem, huser⟩

/-- The sends of the scan for a user whose record has a task list and a
subscription, and the fate of the record. -/
theorem cron_user (send : String → Subscription → PushPayload → SendOutcome) (now : Clock)
    (store : KvStore) (key : String) (ud : UserData) (tasks : List ServerTask)
    (sub : Subscription) (hkeys : (store.map Prod.fst).Nodup) (hmem : (key, ud) ∈ store)
    (huser : isUserKey key = true) (ht : ud.tasks = some tasks)
    (hs : ud.subscription = some sub) :
    attemptsFor key (cronHandler send now (some store)).attempts =
        (if dueTasks (hhmm now.hours now.minutes) tasks = [] then []
         else [(key, sub, reminderPayload (dueTasks (hhmm now.hours now.minutes) tasks))]) ∧
      (((cronHandler send now (some store)).db.getD []).get key = none ↔
        dueTasks (hhmm now.hours now.minutes) tasks ≠ [] ∧
          send key sub (reminderPayload (dueTasks (hhmm now.hours now.minutes) tasks)) =
            SendOutcome.rejected (some 410)) ∧
      (((cronHandler send now (some store)).db.getD []).get key ≠ none →
        ((cronHandler send now (some store)).db.getD []).get key = some ud) := by
  obtain ⟨s0, hg, ha, hfg, hfa⟩ :=
    cronLoop_at send (hhmm now.hours now.minutes) key store.userKeys
      { db := store, notificationsSent := 0, attempts := [] }
      (userKeys_nodup store hkeys) (mem_userKeys store key ud hmem huser)
  have hget : s0.db.get key = some ud := by
    rw [hg]; exact KvStore.get_of_mem store key ud hkeys hmem
  have hu := cronStep_user send (hhmm now.hours now.minutes) s0 key ud tasks sub hget ht hs
  have ha0 : attemptsFor key s0.attempts = [] := by rw [ha]; rfl
  simp only [cronHandler, Option.getD_some]
  rw [hfg, hfa, hu.1, ha0, List.nil_append]
  exact ⟨rfl, hu.2.1, hu.2.2⟩


/-- The record of a key is deleted by its iteration exactly when the
iteration attempted a send that failed with status 410; otherwise the record
stays what it was. -/
theorem cronStep_del_iff (send : String → Subscription → PushPayload → SendOutcome)
    (cur : String) (s : CronState) (key : String) (ud : UserData)
    (hg : s.db.get key = some ud) (ha : attemptsFor key s.attempts = []) :
    ((cronStep send cur s key).db.get key = none ↔
        ∃ a ∈ attemptsFor key (cronStep send cur s key).attempts,
          send a.1 a.2.1 a.2.2 = SendOutcome.rejected (some 410)) ∧
      ((cronStep send cur s key).db.get key ≠ none →
        (cronStep send cur s key).db.get key = some ud) := by
  cases ht : ud.tasks with
  | none =>
    have hstep : cronStep send cur s key = s := by simp [cronStep, hg, ht]
    rw [hstep, hg, ha]
    simp
  | some tasks =>
    cases hs : ud.subscription with
    | none =>
      have hstep : cronStep send cur s key = s := by simp [cronStep, hg, ht, hs]
      rw [hstep, hg, ha]
      simp
    | some sub =>
      have hu := cronStep_user send cur s key ud tasks sub hg ht hs
      rw [hu.1, ha, List.nil_append]
      refine ⟨?_, hu.2.2⟩
      rw [hu.2.1]
      by_cases hd : dueTasks cur tasks = []
      · simp [hd]
      · simp [hd]

/-- C12: for every stored user record that has a subscription and a task
list, one scan sends at most one push for the user: exactly one when some
task has `completedToday` false and `dueTime <= currentTime`, none otherwise.
The payload is `{ title: "Task Reminder", body: "You have due tasks: " ++
titles, tag: "daily-reminder" }`, where the titles are those of the due and
incomplete tasks, in list order, joined by `", "`; two such tasks titled `A`
and `B` give the body `"You have due tasks: A, B"`. -/
theorem cron_one_push_per_user (send : String → Subscription → PushPayload → SendOutcome)
    (now : Clock) (store : KvStore) (key : String) (ud : UserData) (tasks : List ServerTask)
    (sub : Subscription) (hkeys : (store.map Prod.fst).Nodup) (hmem : (key, ud) ∈ store)
    (huser : isUserKey key = true) (ht : ud.tasks = some tasks)
    (hs : ud.subscription = some sub) :
    (attemptsFor key (cronHandler send now (some store)).attempts).length ≤ 1 ∧
      ((∃ t ∈ tasks, t.completedToday = false ∧
          jsLe t.dueTime (hhmm now.hours now.minutes) = true) →
        attemptsFor key (cronHandler send now (some store)).attempts =
          [(key, sub,
            { title := "Task Reminder"
              body := "You have due tasks: " ++ ", ".intercalate
                ((tasks.filter (fun t => !t.completedToday &&
                  jsLe t.dueTime (hhmm now.hours now.minutes))).map ServerTask.title)
              tag := "daily-reminder" })]) ∧
      ((¬ ∃ t ∈ tasks, t.completedToday = false ∧
          jsLe t.dueTime (hhmm now.hours now.minutes) = true) →
        attemptsFor key (cronHandler send now (some store)).attempts = []) ∧
      (∀ a b : ServerTask, a.title = "A" → b.title = "B" →
        (reminderPayload [a, b]).body = "You have due tasks: A, B") := by
  have hu := cron_user send now store key ud tasks sub hkeys hmem huser ht hs
  have hnil : dueTasks (hhmm now.hours now.minutes) tasks = [] ↔
      ¬ ∃ t ∈ tasks, t.completedToday = false ∧
        jsLe t.dueTime (hhmm now.hours now.minutes) = true := by
    simp [dueTasks, List.filter_eq_nil_iff]
  refine ⟨?_, ?_, ?_, ?_⟩
  · rw [hu.1]
    split_ifs <;> simp
  · intro hex
    have hd : dueTasks (hhmm now.hours now.minutes) tasks ≠ [] := fun h => hnil.mp h hex
    rw [hu.1, if_neg hd]
    rfl
  · intro hno
    rw [hu.1, if_pos (hnil.mpr hno)]
  · intro a b ha hb
    simp only [reminderPayload, List.map_cons, List.map_nil, ha, hb]
    decide

theorem cron_one_push_per_user_witness :
    attemptsFor "user:a" (cronHandler sampleSend (sampleClock 11) (some sampleStore)).attempts =
        [("user:a", { endpoint := some "https://push.example/a", keys := "ka" },
          { title := "Task Reminder", body := "You have due tasks: A, B",
            tag := "daily-reminder" })] ∧
      (attemptsFor "user:c"
        (cronHandler sampleSend (sampleClock 11) (some sampleStore)).attempts).length ≤ 1 :=
  ⟨by decide,
    (cron_one_push_per_user sampleSend (sampleClock 11) sampleStore "user:c"
      { subscription := some { endpoint := some "https://push.example/c", keys := "kc" }
        tasks := some [{ title := "D", dueTime := some "23:00", completedToday := false }] }
      [{ title := "D", dueTime := some "23:00", completedToday := false }]
      { endpoint := some "https://push.example/c", keys := "kc" }
      (by decide) (by decide) (by decide) rfl rfl).1⟩

/-- C13: for every set of stored user records (distinct keys) and every
outcome of each send, the scan answers
`200 { success: true, notificationsSent }` where `notificationsSent` is the
number of sends that returned; the record of a user is deleted exactly when a
send was attempted for the user and failed with status 410, and a record that
is not deleted is what it was; and a user with due tasks after a user whose
send failed, with 410 or another status, still gets the send. -/
theorem cron_deletes_only_on_410 (send : String → Subscription → PushPayload → SendOutcome)
    (now : Clock) (store : KvStore) (hkeys : (store.map Prod.fst).Nodup) :
    (cronHandler send now (some store)).status = 200 ∧
      (cronHandler send now (some store)).body =
        CronBody.done true
          (delivered send (cronHandler send now (some store)).attempts).length ∧
      (∀ key ud, (key, ud) ∈ store →
        ((((cronHandler send now (some store)).db.getD []).get key = none ↔
            ∃ sub payload, (key, sub, payload) ∈ (cronHandler send now (some store)).attempts ∧
              send key sub payload = SendOutcome.rejected (some 410)) ∧
          (((cronHandler send now (some store)).db.getD []).get key ≠ none →
            ((cronHandler send now (some store)).db.getD []).get key = some ud))) ∧
      (∀ key ud tasks sub, (key, ud) ∈ store → isUserKey key = true →
        ud.tasks = some tasks → ud.subscription = some sub →
        dueTasks (hhmm now.hours now.minutes) tasks ≠ [] →
        attemptsFor key (cronHandler send now (some store)).attempts =
          [(key, sub, reminderPayload (dueTasks (hhmm now.hours now.minutes) tasks))]) := by
  refine ⟨rfl, ?_, ?_, ?_⟩
  · have hc := cronLoop_count send (hhmm now.hours now.minutes) store.userKeys
      { db := store, notificationsSent := 0, attempts := [] } rfl
    simp only [cronHandler]
    rw [hc]
  · intro key ud hmem
    have hex : ∀ l : List (String × Subscription × PushPayload),
        (∃ a ∈ attemptsFor key l, send a.1 a.2.1 a.2.2 = SendOutcome.rejected (some 410)) ↔
        ∃ sub payload, (key, sub, payload) ∈ l ∧
          send key sub payload = SendOutcome.rejected (some 410) := by
      intro l
      constructor
      · rintro ⟨⟨k, sub, payload⟩, hm, hsend⟩
        simp only [attemptsFor, List.mem_filter, decide_eq_true_eq] at hm
        obtain ⟨hm1, rfl⟩ := hm
        exact ⟨sub, payload, hm1, hsend⟩
      · rintro ⟨sub, payload, hm, hsend⟩
        refine ⟨(key, sub, payload), ?_, hsend⟩
        simp [attemptsFor, hm]
    have hget0 : store.get key = some ud := KvStore.get_of_mem store key ud hkeys hmem
    simp only [cronHandler, Option.getD_some]
    rw [← hex]
    by_cases hk : key ∈ store.userKeys
    · obtain ⟨s0, hg, ha, hfg, hfa⟩ :=
        cronLoop_at send (hhmm now.hours now.minutes) key store.userKeys
          { db := store, notificationsSent := 0, attempts := [] }
          (userKeys_nodup store hkeys) hk
      have hd := cronStep_del_iff send (hhmm now.hours now.minutes) s0 key ud
        (hg.trans hget0) (by rw [ha]; rfl)
      rw [hfg, hfa]
      exact hd
    · have hf := cronLoop_frame send (hhmm now.hours now.minutes) key store.userKeys
        { db := store, notificationsSent := 0, attempts := [] } hk
      rw [hf.1, hf.2]
      simp [hget0, attemptsFor]
  · intro key ud tasks sub hmem huser ht hs hd
    have hu := cron_user send now store key ud tasks sub hkeys hmem huser ht hs
    rw [hu.1, if_neg hd]

theorem cron_deletes_only_on_410_witness :
    ((cronHandler sampleSend (sampleClock 11) (some sampleStore)).db.getD []).map Prod.fst =
        ["user:a", "user:c"] ∧
      (cronHandler sampleSend (sampleClock 11) (some sampleStore)).body =
        CronBody.done true 1 ∧
      (cronHandler sampleSend (sampleClock 11) (some sampleStore)).body =
        CronBody.done true
          (delivered sampleSend
            (cronHandler sampleSend (sampleClock 11) (some sampleStore)).attempts).length :=
  ⟨by decide, by decide,
    (cron_deletes_only_on_410 sampleSend (sampleClock 11) sampleStore (by decide)).2.1⟩


/-! ## The subscribe handler -/

/-- C14: the handler of `POST /api/subscribe` of the Express server answers
400 and leaves the stored list as it was when `body.subscription` is missing;
otherwise it answers 201 with the body `{ ok: true }`, the stored list then
has a subscription with that endpoint, a stored list without two entries of
the same endpoint stays so, and subscribing the same subscription a second
time changes nothing more. -/
theorem subscribe_stores_once (stored : List Subscription) :
    ((subscribeHandler none stored).status = 400 ∧
        (subscribeHandler none stored).subs = stored) ∧
      (∀ sub : Subscription,
        (subscribeHandler (some sub) stored).status = 201 ∧
        (subscribeHandler (some sub) stored).body = SubscribeBody.ok ∧
        (∃ s ∈ (subscribeHandler (some sub) stored).subs, s.endpoint = sub.endpoint) ∧
        ((stored.map Subscription.endpoint).Nodup →
          ((subscribeHandler (some sub) stored).subs.map Subscription.endpoint).Nodup) ∧
        (subscribeHandler (some sub) (subscribeHandler (some sub) stored).subs).subs =
          (subscribeHandler (some sub) stored).subs) := by
  refine ⟨⟨rfl, rfl⟩, fun sub => ?_⟩
  cases hf : stored.find? (fun s => s.endpoint == sub.endpoint) with
  | none =>
    have hno : ∀ s ∈ stored, s.endpoint ≠ sub.endpoint := by
      intro s hs
      have := List.find?_eq_none.mp hf s hs
      simpa using this
    have hres : subscribeHandler (some sub) stored =
        { status := 201, body := SubscribeBody.ok, subs := stored ++ [sub] } := by
      simp [subscribeHandler, hf]
    have hfound : ((stored ++ [sub]).find? (fun s => s.endpoint == sub.endpoint)).isNone
        = false := by
      rw [List.find?_append, hf]
      simp
    rw [hres]
    refine ⟨rfl, rfl, ⟨sub, by simp, rfl⟩, ?_, ?_⟩
    · intro hnd
      simp only [List.map_append, List.map_cons, List.map_nil]
      refine List.Nodup.append hnd (List.nodup_singleton _) ?_
      intro e he hsingle
      simp only [List.mem_singleton] at hsingle
      obtain ⟨s, hs, hse⟩ := List.mem_map.mp he
      exact hno s hs (hse.trans hsingle)
    · simp [subscribeHandler, hfound]
  | some found =>
    have hmem : found ∈ stored := List.mem_of_find?_eq_some hf
    have hend : found.endpoint = sub.endpoint := by
      have := List.find?_some hf
      simpa using this
    have hres : subscribeHandler (some sub) stored =
        { status := 201, body := SubscribeBody.ok, subs := stored } := by
      simp [subscribeHandler, hf]
    rw [hres]
    exact ⟨rfl, rfl, ⟨found, hmem, hend⟩, fun h => h, by simp [subscribeHandler, hf]⟩

/-! ## Across midnight -/

/-- A run in which a task of level above 0 is not completed and is not both
due and past its interval leaves the stored entry of the task as it was. -/
theorem tick_keeps_entry (now : Clock) (tasks : List Task) (stored : Option AlertState)
    (t : Task) (esc : Escalation) (e : AlertEntry)
    (hids : (tasks.map Task.id).Nodup) (hraise : ∀ x ∈ tasks, raises now x = false)
    (ht : t ∈ tasks) (hesc : t.escalation = some esc)
    (hprev : (stored.getD []).get t.id = some e) (hlevel : 1 ≤ e.level)
    (hnot : isCompletedToday now t = false)
    (hwait : ¬(jsGe (currentTimeStr now) t.dueTime = true ∧
      intervalElapsed now.time e.lastTime esc.intervalMinutes = true)) :
    ((persisted stored (checkReminders now tasks stored)).getD []).get t.id = some e := by
  rw [persisted_eq now tasks stored (tick_not_threw now tasks stored hraise)]
  have hl : lastAlertOf (stored.getD []) t.id = e := by
    unfold lastAlertOf; rw [hprev]; rfl
  cases hd : jsGe (currentTimeStr now) t.dueTime with
  | false =>
    rw [(tick_not_due now tasks stored t hids hraise ht hnot hd).1]
    exact hprev
  | true =>
    have hstay : ¬((lastAlertOf (stored.getD []) t.id).level = 0 ∨
        intervalElapsed now.time (lastAlertOf (stored.getD []) t.id).lastTime
          esc.intervalMinutes = true) := by
      rw [hl]
      rintro (h0 | hge)
      · omega
      · exact hwait ⟨hd, hge⟩
    rw [(tick_hold now tasks stored t esc hids hraise ht hnot hd hesc hstay).1]
    exact hprev

/-- A sequence of such runs leaves the stored entry as it was. -/
theorem runTicks_keeps_entry (t : Task) (esc : Escalation) (e : AlertEntry)
    (hesc : t.escalation = some esc) (hlevel : 1 ≤ e.level) :
    ∀ (ticks : List (Clock × List Task)) (stored : Option AlertState),
      (stored.getD []).get t.id = some e →
      (∀ tick ∈ ticks, (tick.2.map Task.id).Nodup ∧
        (∀ x ∈ tick.2, raises tick.1 x = false) ∧ t ∈ tick.2 ∧
        isCompletedToday tick.1 t = false ∧
        ¬(jsGe (currentTimeStr tick.1) t.dueTime = true ∧
          intervalElapsed tick.1.time e.lastTime esc.intervalMinutes = true)) →
      ((runTicks ticks stored).getD []).get t.id = some e := by
  intro ticks
  induction ticks with
  | nil => intro stored h _; exact h
  | cons x rest ih =>
    intro stored hprev hticks
    obtain ⟨now, tasks⟩ := x
    have hx := hticks (now, tasks) (List.mem_cons_self _ _)
    simp only [runTicks]
    exact ih _ (tick_keeps_entry now tasks stored t esc e hx.1 hx.2.1 hx.2.2.1 hesc hprev
      hlevel hx.2.2.2.1 hx.2.2.2.2) (fun tick htick => hticks tick (List.mem_cons_of_mem _ htick))

/-- On task lists with distinct ids on which the loop does not raise, for a
task that is not completed and whose entry has a level `L >= 1` and a
`lastTime` of an earlier day (nothing in the run reads the day of `lastTime`,
so of any day). After runs at which the task is not both due and past its
interval, which leave the entry as it was, the first run at which
`currentTimeStr >= dueTime` and `(now - lastTime) / 60000 >= intervalMinutes`
stores `{ level: min(L + 1, maxSteps), lastTime: now }` and calls
`triggerAlert` once at that level: the level goes on from `L`, and with
`maxSteps >= 2` it is at least 2, neither 0 nor 1. -/
theorem level_continues_over_days (t : Task) (esc : Escalation) (e : AlertEntry)
    (stored : Option AlertState) (before : List (Clock × List Task)) (now : Clock)
    (tasks : List Task)
    (hesc : t.escalation = some esc)
    (hprev : (stored.getD []).get t.id = some e) (hlevel : 1 ≤ e.level)
    (hbefore : ∀ tick ∈ before, (tick.2.map Task.id).Nodup ∧
      (∀ x ∈ tick.2, raises tick.1 x = false) ∧ t ∈ tick.2 ∧
      isCompletedToday tick.1 t = false ∧
      ¬(jsGe (currentTimeStr tick.1) t.dueTime = true ∧
        intervalElapsed tick.1.time e.lastTime esc.intervalMinutes = true))
    (hids : (tasks.map Task.id).Nodup) (hraise : ∀ x ∈ tasks, raises now x = false)
    (ht : t ∈ tasks) (hnot : today now ∉ t.completedInstances)
    (hdue : jsGe (currentTimeStr now) t.dueTime = true)
    (helapsed : (esc.intervalMinutes : ℚ) ≤ ((now.time - e.lastTime : Int) : ℚ) / 60000) :
    ((runTicks before stored).getD []).get t.id = some e ∧
      ((runTicks (before ++ [(now, tasks)]) stored).getD []).get t.id =
        some { level := min (e.level + 1) esc.maxSteps, lastTime := now.time } ∧
      callsFor t.id (checkReminders now tasks (runTicks before stored)).calls =
        [(t, min (e.level + 1) esc.maxSteps)] ∧
      (2 ≤ esc.maxSteps → 2 ≤ min (e.level + 1) esc.maxSteps) := by
  have hkept := runTicks_keeps_entry t esc e hesc hlevel before stored hprev hbefore
  have hc : isCompletedToday now t = false := by
    simp [isCompletedToday, hnot]
  have hl : lastAlertOf ((runTicks before stored).getD []) t.id = e := by
    unfold lastAlertOf; rw [hkept]; rfl
  have hgo : (lastAlertOf ((runTicks before stored).getD []) t.id).level = 0 ∨
      intervalElapsed now.time (lastAlertOf ((runTicks before stored).getD []) t.id).lastTime
        esc.intervalMinutes = true := by
    rw [hl]
    exact Or.inr ((intervalElapsed_iff now.time e.lastTime esc.intervalMinutes).mpr helapsed)
  have h := tick_escalate now tasks (runTicks before stored) t esc hids hraise ht hc hdue hesc hgo
  rw [hl] at h
  have hrun : runTicks (before ++ [(now, tasks)]) stored =
      persisted (runTicks before stored)
        (checkReminders now tasks (runTicks before stored)) := by
    rw [runTicks_append]; rfl
  rw [hrun, persisted_eq now tasks _ (tick_not_threw now tasks _ hraise)]
  exact ⟨hkept, h.1, h.2, fun hmax => le_min (by omega) hmax⟩

theorem level_continues_over_days_witness :
    persisted none (checkReminders sampleEveClock [sampleTask []] none) =
        some [("t1", { level := 1, lastTime := 1709586000000 })] ∧
      ((runTicks ([(sampleEarlyClock, [sampleTask []])] ++ [(sampleClock 0, [sampleTask []])])
          (some [("t1", { level := 1, lastTime := 1709586000000 })])).getD []).get "t1" =
        some { level := min (1 + 1) 3, lastTime := (sampleClock 0).time } :=
  have hw : (((5 : Int) : ℚ)) ≤ (((sampleClock 0).time - 1709586000000 : Int) : ℚ) / 60000 := by
    simp only [sampleClock]; norm_num
  ⟨by decide,
    (level_continues_over_days (sampleTask []) { intervalMinutes := 5, maxSteps := 3 }
      { level := 1, lastTime := 1709586000000 }
      (some [("t1", { level := 1, lastTime := 1709586000000 })])
      [(sampleEarlyClock, [sampleTask []])] (sampleClock 0) [sampleTask []]
      rfl (by decide) (by decide) (by decide) (by decide) (by decide) (by decide) (by decide)
      (by decide) hw).2.1⟩

/-! ## Dates of completion -/

theorem putTask_find_of_ne (task : Task) {id : String} (h : task.id ≠ id) :
    ∀ l : List Task, (putTask task l).find? (fun x => x.id == id) =
      l.find? (fun x => x.id == id) := by
  intro l
  induction l with
  | nil => simp [putTask, h]
  | cons x rest ih =>
    by_cases hx : x.id = task.id
    · have hxi : x.id ≠ id := by rw [hx]; exact h
      simp [putTask, hx, h]
    · by_cases hxi : x.id = id
      · rw [putTask, if_neg hx]
        simp [hxi]
      · simp [putTask, hx, hxi, ih]

/-- One call of `toggleComplete`, for any id, keeps the dates of a task
distinct. -/
theorem toggleComplete_nodup (now : Clock) (other id : String) (db : Database) (t : Task)
    (hf : db.tasks.find? (fun x => x.id == id) = some t)
    (hnd : t.completedInstances.Nodup) :
    ∃ t1, (toggleComplete now other db).tasks.find? (fun x => x.id == id) = some t1 ∧
      t1.completedInstances.Nodup := by
  cases hfo : db.tasks.find? (fun x => x.id == other) with
  | none =>
    refine ⟨t, ?_, hnd⟩
    simp [toggleComplete, hfo, hf]
  | some u =>
    have hu : u.id = other := by
      have := List.find?_some hfo
      simpa using this
    by_cases hid : other = id
    · subst hid
      have htu : u = t := by
        rw [hf] at hfo
        exact (Option.some.inj hfo).symm
      subst htu
      by_cases hc : u.completedInstances.contains (today now) = true
      · refine ⟨{ u with
            completedInstances := u.completedInstances.filter (fun d => d != today now)
            updatedAt := now.isoDate ++ "T" ++ now.isoTime }, ?_, List.Nodup.filter _ hnd⟩
        simp only [toggleComplete, hfo, hc, if_true, updateTask, saveTask]
        rw [← hu]
        exact putTask_find { u with
            completedInstances := u.completedInstances.filter (fun d => d != today now)
            updatedAt := now.isoDate ++ "T" ++ now.isoTime } db.tasks
      · have hin : today now ∉ u.completedInstances := by simpa using hc
        refine ⟨{ u with
            completedInstances := u.completedInstances ++ [today now]
            updatedAt := now.isoDate ++ "T" ++ now.isoTime }, ?_, ?_⟩
        · simp only [toggleComplete, hfo, hc, if_false, updateTask, saveTask]
          rw [← hu]
          exact putTask_find { u with
            completedInstances := u.completedInstances ++ [today now]
            updatedAt := now.isoDate ++ "T" ++ now.isoTime } db.tasks
        · refine List.Nodup.append hnd (List.nodup_singleton _) ?_
          intro d hd hs
          simp only [List.mem_singleton] at hs
          exact hin (hs ▸ hd)
    · have hne : u.id ≠ id := by rw [hu]; exact hid
      refine ⟨t, ?_, hnd⟩
      by_cases hc : u.completedInstances.contains (today now) = true
      · simp only [toggleComplete, hfo, hc, if_true, updateTask, saveTask]
        rw [← hf]
        exact putTask_find_of_ne { u with
            completedInstances := u.completedInstances.filter (fun d => d != today now)
            updatedAt := now.isoDate ++ "T" ++ now.isoTime } hne db.tasks
      · simp only [toggleComplete, hfo, hc, if_false, updateTask, saveTask]
        rw [← hf]
        exact putTask_find_of_ne { u with
            completedInstances := u.completedInstances ++ [today now]
            updatedAt := now.isoDate ++ "T" ++ now.isoTime } hne db.tasks

/-- C16: a task created by `addTask` from data without `completedInstances`
starts with the empty list and is in the store; and a task whose
`completedInstances` has no date twice still has none twice after any number
of calls of `toggleComplete`, on it or on other tasks, at any clock
readings. -/
theorem completedInstances_stay_distinct :
    (∀ (now : Clock) (uuid : String) (data : TaskData) (db : Database),
      data.completedInstances = none →
        (addTask now uuid data db).1.completedInstances = [] ∧
        (addTask now uuid data db).2.tasks.find? (fun x => x.id == uuid) =
          some (addTask now uuid data db).1) ∧
      (∀ (calls : List (Clock × String)) (db : Database) (id : String) (t : Task),
        db.tasks.find? (fun x => x.id == id) = some t → t.completedInstances.Nodup →
        ∃ t1, (toggleMany calls db).tasks.find? (fun x => x.id == id) = some t1 ∧
          t1.completedInstances.Nodup) := by
  refine ⟨fun now uuid data db hnone => ?_, fun calls => ?_⟩
  · refine ⟨by simp [addTask, hnone], ?_⟩
    exact putTask_find (addTask now uuid data db).1 db.tasks
  · induction calls with
    | nil => intro db id t hf hnd; exact ⟨t, hf, hnd⟩
    | cons c rest ih =>
      intro db id t hf hnd
      obtain ⟨now, other⟩ := c
      obtain ⟨t1, hf1, hnd1⟩ := toggleComplete_nodup now other id db t hf hnd
      simp only [toggleMany]
      exact ih _ id t1 hf1 hnd1

theorem completedInstances_stay_distinct_witness :
    (addTask (sampleClock 0) "t9"
        { title := "Call", dueTime := some "10:00", intervalMinutes := none,
          completedInstances := none }
        (Database.mk [] none)).1.completedInstances = [] ∧
      (toggleMany [(sampleEveClock, "t1"), (sampleClock 0, "t1"), (sampleClock 3, "t1"),
          (sampleClock 5, "t1")]
        (Database.mk [sampleTask []] none)).tasks.map Task.completedInstances =
        [["2024-03-04", "2024-03-05"]] :=
  ⟨(completedInstances_stay_distinct.1 (sampleClock 0) "t9"
      { title := "Call", dueTime := some "10:00", intervalMinutes := none,
        completedInstances := none }
      (Database.mk [] none) rfl).1,
    by decide⟩
/-! ## Runs that a record without `escalation` ends -/

/-- C1, where the code departs from the claim: at 09:11 the sample task is
completed today and has a stored entry of level 2. With a due record without
`escalation` in the list the run raises and writes nothing, so the entry is
still in the store after the run, whichever of the two records comes first;
with the record first the entry also stays in the aggregate. Without the
record the run deletes the entry and writes the emptied aggregate. -/
theorem completed_entry_kept_when_run_raises :
    today (sampleClock 11) ∈ (sampleTask ["2024-03-05"]).completedInstances ∧
      ((checkReminders (sampleClock 11) [sampleNoPolicyTask, sampleTask ["2024-03-05"]]
            (some [("t1", { level := 2, lastTime := 1709629500000 })])).threw = true ∧
        (checkReminders (sampleClock 11) [sampleNoPolicyTask, sampleTask ["2024-03-05"]]
            (some [("t1", { level := 2, lastTime := 1709629500000 })])).alertState.get "t1" =
          some { level := 2, lastTime := 1709629500000 } ∧
        ((persisted (some [("t1", { level := 2, lastTime := 1709629500000 })])
            (checkReminders (sampleClock 11) [sampleNoPolicyTask, sampleTask ["2024-03-05"]]
              (some [("t1", { level := 2, lastTime := 1709629500000 })]))).getD []).get "t1" =
          some { level := 2, lastTime := 1709629500000 }) ∧
      ((checkReminders (sampleClock 11) [sampleTask ["2024-03-05"], sampleNoPolicyTask]
            (some [("t1", { level := 2, lastTime := 1709629500000 })])).threw = true ∧
        (checkReminders (sampleClock 11) [sampleTask ["2024-03-05"], sampleNoPolicyTask]
            (some [("t1", { level := 2, lastTime := 1709629500000 })])).saved = none ∧
        ((persisted (some [("t1", { level := 2, lastTime := 1709629500000 })])
            (checkReminders (sampleClock 11) [sampleTask ["2024-03-05"], sampleNoPolicyTask]
              (some [("t1", { level := 2, lastTime := 1709629500000 })]))).getD []).get "t1" =
          some { level := 2, lastTime := 1709629500000 }) ∧
      ((persisted (some [("t1", { level := 2, lastTime := 1709629500000 })])
          (checkReminders (sampleClock 11) [sampleTask ["2024-03-05"]]
            (some [("t1", { level := 2, lastTime := 1709629500000 })]))).getD []).get "t1" =
        none := by
  decide

/-- C2, where the code departs from the claim: at 09:47 the sample task is
due, not completed and has no entry. With a due record without `escalation`
before it in the list the run raises before the iteration for the task: no
entry is set and `triggerAlert` is not called. With the record after it the
call at level 1 is made and the entry is set in the aggregate, but nothing is
written and the store has no entry after the run. Without the record the
entry `{ level: 1, lastTime: now }` is written. -/
theorem first_alert_lost_when_run_raises :
    ((checkReminders (sampleClock 47) [sampleNoPolicyTask, sampleTask []] none).threw = true ∧
        (checkReminders (sampleClock 47) [sampleNoPolicyTask, sampleTask []] none).alertState.get
          "t1" = none ∧
        callsFor "t1"
          (checkReminders (sampleClock 47) [sampleNoPolicyTask, sampleTask []] none).calls = []) ∧
      ((checkReminders (sampleClock 47) [sampleTask [], sampleNoPolicyTask] none).threw = true ∧
        callsFor "t1"
          (checkReminders (sampleClock 47) [sampleTask [], sampleNoPolicyTask] none).calls =
          [(sampleTask [], 1)] ∧
        ((persisted none
          (checkReminders (sampleClock 47) [sampleTask [], sampleNoPolicyTask] none)).getD []).get
          "t1" = none) ∧
      ((persisted none (checkReminders (sampleClock 47) [sampleTask []] none)).getD []).get "t1" =
        some { level := 1, lastTime := 1709632020000 } := by
  decide

/-- C9, where the code departs from the claim: at 09:05 the run over the
sample task (level 1 since 09:00) and a due record without `escalation` after
it sets the entry of the sample task to level 2 and calls `triggerAlert`, then
raises before the write: an entry was set and nothing is written. Without the
record the same aggregate is written. -/
theorem entry_set_without_write_when_run_raises :
    setsEntry (sampleClock 5)
        (initState (some [("t1", { level := 1, lastTime := 1709629200000 })]))
        (sampleTask []) = true ∧
      (checkReminders (sampleClock 5) [sampleTask [], sampleNoPolicyTask]
          (some [("t1", { level := 1, lastTime := 1709629200000 })])).threw = true ∧
      (checkReminders (sampleClock 5) [sampleTask [], sampleNoPolicyTask]
          (some [("t1", { level := 1, lastTime := 1709629200000 })])).alertState =
        [("t1", { level := 2, lastTime := 1709629500000 })] ∧
      (checkReminders (sampleClock 5) [sampleTask [], sampleNoPolicyTask]
          (some [("t1", { level := 1, lastTime := 1709629200000 })])).calls =
        [(sampleTask [], 2)] ∧
      (checkReminders (sampleClock 5) [sampleTask [], sampleNoPolicyTask]
          (some [("t1", { level := 1, lastTime := 1709629200000 })])).saved = none ∧
      (checkReminders (sampleClock 5) [sampleTask []]
          (some [("t1", { level := 1, lastTime := 1709629200000 })])).saved =
        some [("t1", { level := 2, lastTime := 1709629500000 })] := by
  decide

/-- C15, where the code departs from the claim: the sample task has the entry
of level 1 written at 21:00 on 4 March and is due, not completed and past its
interval at 09:00 on 5 March. With a due record without `escalation` before
it in the list the run raises: no call is made and the store keeps level 1.
With the record after it the call at level 2 is made but the store keeps
level 1. Without the record the run stores level 2 and calls at level 2. -/
theorem level_not_advanced_when_run_raises :
    ((checkReminders (sampleClock 0) [sampleNoPolicyTask, sampleTask []]
            (some [("t1", { level := 1, lastTime := 1709586000000 })])).threw = true ∧
        (checkReminders (sampleClock 0) [sampleNoPolicyTask, sampleTask []]
            (some [("t1", { level := 1, lastTime := 1709586000000 })])).calls = [] ∧
        ((persisted (some [("t1", { level := 1, lastTime := 1709586000000 })])
            (checkReminders (sampleClock 0) [sampleNoPolicyTask, sampleTask []]
              (some [("t1", { level := 1, lastTime := 1709586000000 })]))).getD []).get "t1" =
          some { level := 1, lastTime := 1709586000000 }) ∧
      ((checkReminders (sampleClock 0) [sampleTask [], sampleNoPolicyTask]
            (some [("t1", { level := 1, lastTime := 1709586000000 })])).threw = true ∧
        (checkReminders (sampleClock 0) [sampleTask [], sampleNoPolicyTask]
            (some [("t1", { level := 1, lastTime := 1709586000000 })])).calls =
          [(sampleTask [], 2)] ∧
        ((persisted (some [("t1", { level := 1, lastTime := 1709586000000 })])
            (checkReminders (sampleClock 0) [sampleTask [], sampleNoPolicyTask]
              (some [("t1", { level := 1, lastTime := 1709586000000 })]))).getD []).get "t1" =
          some { level := 1, lastTime := 1709586000000 }) ∧
      ((checkReminders (sampleClock 0) [sampleTask []]
            (some [("t1", { level := 1, lastTime := 1709586000000 })])).calls =
          [(sampleTask [], 2)] ∧
        ((persisted (some [("t1", { level := 1, lastTime := 1709586000000 })])
            (checkReminders (sampleClock 0) [sampleTask []]
              (some [("t1", { level := 1, lastTime := 1709586000000 })]))).getD []).get "t1" =
          some { level := 2, lastTime := 1709629200000 }) := by
  decide

end DailyReminder
